import Mathlib

set_option maxRecDepth 10000
set_option maxHeartbeats 1000000

/-!
Shallow embedding of `src/td/telegram/SequenceDispatcher.cpp`.

Conventions of the embedding:
* C++ `double` timeout fields (`total_timeout_`, `last_timeout_`, `total_timeout_limit_`)
  are modelled exactly as integers counting thousandths of a time unit (fixed point),
  so the literal `0.999` of the source becomes `999`.  All operations the source
  performs on them (addition, comparison, truncating cast to `int32`) are exact in
  this representation.
* `NetQueryPtr` is the structure `Query`; an empty pointer is `Option.none`.
* `NetQueryRef` (a weak reference) is `Option Nat`, holding the id of the referenced
  query; `none` is the empty reference.
* Actor message sends (`send_closure`, dispatch to the transport, promises) are
  recorded as `Ev` values prepended to an event log (most recent event first).
* A failed `CHECK` aborts the process; at the boundary of a message handler this is
  modelled by returning `none`.  `CHECK`s on internal helpers that hold at every
  call site are modelled as early returns leaving the state unchanged.
-/

namespace TD

/-- Error payload of a `Status`/`NetQuery` error: code and message. -/
structure Err where
  code : Int
  message : String
deriving DecidableEq

/-- The per-query lifecycle states of `SequenceDispatcher` (`State` in the source). -/
inductive QState
  | Start
  | Wait
  | Dummy
  | Finish
deriving DecidableEq

/-- The observable part of a `NetQuery` used by `SequenceDispatcher.cpp`:
timeouts (in thousandths), error status, the `invoke_after` list (ids of the
referenced queries), the session randomiser and a resend marker. -/
structure Query where
  id : Nat
  total_timeout : Int
  total_timeout_limit : Int
  last_timeout : Int
  error : Option Err
  invoke_after : List Nat
  session_rand : Nat
  resend_count : Nat
deriving DecidableEq

/-- `NetQuery::is_error()`. -/
def Query.is_error (q : Query) : Bool :=
  q.error.isSome

/-- `NetQuery::error().code()`; only meaningful when an error is set. -/
def Query.error_code (q : Query) : Int :=
  match q.error with
  | some e => e.code
  | none => 0

/-- `NetQuery::error().message()`; only meaningful when an error is set. -/
def Query.error_message (q : Query) : String :=
  match q.error with
  | some e => e.message
  | none => ""

/-- `NetQuery::set_error`. -/
def Query.set_error (q : Query) (e : Err) : Query :=
  { q with error := some e }

/-- Modelled from the spec: `NetQuery::resend()` is declared outside `src/`;
per the spec it marks the query for resending, modelled as a counter bump. -/
def Query.resend (q : Query) : Query :=
  { q with resend_count := q.resend_count + 1 }

/-- A queue slot of the dispatcher (`SequenceDispatcher::Data`), with the field
order of the brace initialiser at line 48 of the source. -/
structure Data where
  state_ : QState
  net_query_ref_ : Option Nat
  query_ : Option Query
  callback_ : Nat
  generation_ : Nat
  total_timeout_ : Int
  last_timeout_ : Int
deriving DecidableEq

/-- Events emitted by the dispatcher towards the outside world, most recent first. -/
inductive Ev
  | dispatched (token : Nat) (q : Query)
  | resendAsk (token : Nat) (q : Query)
  | parentResult
  | readyToClose
deriving DecidableEq

/-- The state of one `SequenceDispatcher` actor. -/
structure SequenceDispatcher where
  data_ : List Data
  finish_i_ : Nat
  next_i_ : Nat
  last_sent_i_ : Option Nat
  generation_ : Nat
  wait_cnt_ : Nat
  id_offset_ : Nat
  session_rand_ : Nat
  parent_present : Bool
  timer_ : Option Nat
  events : List Ev
deriving DecidableEq

/-- Modelled from the spec: the initial field values live in `SequenceDispatcher.h`,
which is not under `src/`.  Indices and counters start at zero, `last_sent_i_`
is invalid, and the id offset starts at a positive value (its concrete initial
value does not matter to any claim: only consistency between the token attached
at dispatch and the token looked up on result does). -/
def SequenceDispatcher.init (session_rand : Nat) (parent : Bool) : SequenceDispatcher :=
  ⟨[], 0, 0, none, 0, 0, 1, session_rand, parent, none, []⟩

/-- Modelled from the spec: `MAX_SIMULTANEOUS_WAIT` is declared in
`SequenceDispatcher.h`, which is not under `src/`; the spec records the
recommended value 10. -/
def MAX_SIMULTANEOUS_WAIT : Nat := 10

/-- Modelled from the spec: `NetQuery::ResendInvokeAfter` is declared in a header
outside `src/`; it is an error code distinct from the HTTP-like codes, meaning
"resend with a fresh invoke-after". -/
def ResendInvokeAfter : Int := 202

/-- Modelled from the spec: `Global::request_aborted_error()` is declared outside
`src/`; per the spec it is the *aborted* error delivered on teardown. -/
def requestAbortedError : Err := ⟨500, "Request aborted"⟩

/-- Overwrite slot `i` of the queue (in-place mutation of `data_[i]` in the source). -/
def setNode (st : SequenceDispatcher) (i : Nat) (d : Data) : SequenceDispatcher :=
  { st with data_ := st.data_.set i d }

/-- `SequenceDispatcher::try_resend_query` (lines 69–85): the node re-enters `Wait`
occupying a `wait_cnt_` slot while the callback decides, and the query is handed
to the callback through `on_result_resendable` with a promise carrying the
node's external token. -/
def tryResendQuery (st : SequenceDispatcher) (i : Nat) (q : Query) : SequenceDispatcher :=
  match st.data_[i]? with
  | none => st
  | some d =>
    if d.state_ ≠ QState.Dummy then st
    else
      let st := setNode st i { d with state_ := QState.Wait }
      { st with wait_cnt_ := st.wait_cnt_ + 1,
                events := Ev.resendAsk (i + st.id_offset_) q :: st.events }

/-- Truncating cast to `int32` (two's complement wrap-around), as performed by
`static_cast<int32>` in the source. -/
def toInt32 (n : Int) : Int :=
  (n + 2 ^ 31) % 2 ^ 32 - 2 ^ 31

/-- The retry-after value of the synthesised 429 error:
`static_cast<int32>(last_timeout_ + 0.999)` in fixed-point thousandths. -/
def retryAfter (lastTimeout : Int) : Int :=
  toInt32 (Int.tdiv (lastTimeout + 999) 1000)

/-- The message of the synthesised 429 error. -/
def floodMessage (lastTimeout : Int) : String :=
  "Too Many Requests: retry after " ++ toString (retryAfter lastTimeout)

/-- `SequenceDispatcher::check_timeout` (lines 52–67). -/
def checkTimeout (st : SequenceDispatcher) (i : Nat) : SequenceDispatcher :=
  match st.data_[i]? with
  | none => st
  | some d =>
    if d.state_ ≠ QState.Start then st
    else
      match d.query_ with
      | none => st
      | some q =>
        let q := { q with total_timeout := q.total_timeout + d.total_timeout_ }
        let d := { d with total_timeout_ := 0, query_ := some q }
        if q.total_timeout > q.total_timeout_limit then
          let q := q.set_error ⟨429, floodMessage d.last_timeout_⟩
          let d := { d with state_ := QState.Dummy, query_ := none }
          tryResendQuery (setNode st i d) i q
        else
          setNode st i d

/-- `SequenceDispatcher::data_from_token` (lines 87–97): resolve the link token to
a queue position, flip the node `Wait → Dummy` and release its `wait_cnt_` slot.
A failing `CHECK` (token below the offset or out of range, node not in `Wait`,
`wait_cnt_` zero) aborts, modelled as `none`. -/
def dataFromToken (st : SequenceDispatcher) (tok : Nat) :
    Option (SequenceDispatcher × Nat) :=
  if tok < st.id_offset_ then none
  else
    match st.data_[tok - st.id_offset_]? with
    | none => none
    | some d =>
      if d.state_ ≠ QState.Wait then none
      else if st.wait_cnt_ = 0 then none
      else
        some ({ st with
                data_ := st.data_.set (tok - st.id_offset_) { d with state_ := QState.Dummy },
                wait_cnt_ := st.wait_cnt_ - 1 }, tok - st.id_offset_)

/-- The assignments of `SequenceDispatcher::do_resend` (lines 112–119), before the
trailing `check_timeout` call. -/
def doResendCore (st : SequenceDispatcher) (i : Nat) : SequenceDispatcher :=
  match st.data_[i]? with
  | none => st
  | some d =>
    if d.state_ ≠ QState.Dummy then st
    else
      let st := setNode st i { d with state_ := QState.Start }
      if d.generation_ = st.generation_ then
        { st with next_i_ := st.finish_i_,
                  generation_ := st.generation_ + 1,
                  last_sent_i_ := none }
      else st

/-- `SequenceDispatcher::do_resend` (lines 112–121). -/
def doResend (st : SequenceDispatcher) (i : Nat) : SequenceDispatcher :=
  checkTimeout (doResendCore st i) i

/-- `SequenceDispatcher::do_finish` (lines 123–129). -/
def doFinish (st : SequenceDispatcher) (i : Nat) : SequenceDispatcher :=
  match st.data_[i]? with
  | none => st
  | some d =>
    if d.state_ ≠ QState.Dummy then st
    else
      let st := setNode st i { d with state_ := QState.Finish }
      if st.parent_present then { st with events := Ev.parentResult :: st.events } else st

/-- The per-slot update of the flood-timeout propagation loop of `on_result`
(lines 137–139): accumulate and record the observed `last_timeout`. -/
def bumpNode (lt : Int) (d : Data) : Data :=
  { d with total_timeout_ := d.total_timeout_ + lt, last_timeout_ := lt }

/-- The flood-timeout propagation loop of `on_result` (lines 136–142), fuelled;
the fuel is instantiated so that the recursion covers the rest of the queue. -/
def propagateFrom (lt : Int) : Nat → SequenceDispatcher → Nat → SequenceDispatcher
  | 0, st, _ => st
  | fuel + 1, st, i =>
    match st.data_[i]? with
    | none => st
    | some d =>
      propagateFrom lt fuel (checkTimeout (setNode st i (bumpNode lt d)) i) (i + 1)

/-- `for (auto i = pos + 1; i < data_.size(); i++) { ... }` of `on_result`,
entered at position `i`. -/
def propagate (lt : Int) (st : SequenceDispatcher) (i : Nat) : SequenceDispatcher :=
  propagateFrom lt (st.data_.length - i) st i

/-- The invoke-after computation of the send loop (lines 169–172): the weak
reference of the node at `last_sent_i_` when that index is defined and the node
is still in `Wait`, the empty reference otherwise. -/
def invokeAfterRef (st : SequenceDispatcher) : Option Nat :=
  match st.last_sent_i_ with
  | some j =>
    match st.data_[j]? with
    | some dj => if dj.state_ = QState.Wait then dj.net_query_ref_ else none
    | none => none
  | none => none

/-- The query as handed to the transport (lines 173–183): invoke-after attached
(a one-element list when the reference is non-empty, else empty), `last_timeout`
zeroed, and the session randomiser stamped. -/
def sentQuery (st : SequenceDispatcher) (q : Query) : Query :=
  { q with invoke_after := (invokeAfterRef st).toList, last_timeout := 0,
           session_rand := st.session_rand_ }

/-- The dispatch body of the send loop (lines 169–189): compute the invoke-after
reference from `last_sent_i_`, zero the query's `last_timeout`, stamp the
session randomiser, hand the query to the transport under token
`next_i_ + id_offset_`, and account the node as sent. -/
def dispatchAt (st : SequenceDispatcher) : SequenceDispatcher :=
  match st.data_[st.next_i_]? with
  | none => st
  | some d =>
    match d.query_ with
    | none => st
    | some q =>
      let q := sentQuery st q
      let st := { st with events := Ev.dispatched (st.next_i_ + st.id_offset_) q :: st.events }
      let st := setNode st st.next_i_
        { d with query_ := none, state_ := QState.Wait, generation_ := st.generation_ }
      { st with wait_cnt_ := st.wait_cnt_ + 1,
                last_sent_i_ := some st.next_i_,
                next_i_ := st.next_i_ + 1 }

/-- The send loop of `SequenceDispatcher::loop` (lines 164–190), fuelled. -/
def sendLoop : Nat → SequenceDispatcher → SequenceDispatcher
  | 0, st => st
  | fuel + 1, st =>
    match st.data_[st.next_i_]? with
    | none => st
    | some d =>
      if d.state_ = QState.Wait then st
      else if MAX_SIMULTANEOUS_WAIT ≤ st.wait_cnt_ then st
      else if d.state_ = QState.Finish then
        sendLoop fuel { st with next_i_ := st.next_i_ + 1 }
      else
        sendLoop fuel (dispatchAt st)

/-- The `finish_i_` advance of `SequenceDispatcher::loop` (lines 159–160), fuelled. -/
def advanceFinish : Nat → SequenceDispatcher → SequenceDispatcher
  | 0, st => st
  | fuel + 1, st =>
    match st.data_[st.finish_i_]? with
    | some d =>
      if d.state_ = QState.Finish then
        advanceFinish fuel { st with finish_i_ := st.finish_i_ + 1 }
      else st
    | none => st

/-- `SequenceDispatcher::try_shrink` (lines 199–214). -/
def tryShrink (st : SequenceDispatcher) : SequenceDispatcher :=
  if st.finish_i_ * 2 > st.data_.length ∧ st.data_.length > 5 then
    { st with
      data_ := st.data_.drop st.finish_i_,
      next_i_ := st.next_i_ - st.finish_i_,
      last_sent_i_ :=
        match st.last_sent_i_ with
        | some j => if st.finish_i_ ≤ j then some (j - st.finish_i_) else none
        | none => none,
      id_offset_ := st.id_offset_ + st.finish_i_,
      finish_i_ := 0 }
  else st

/-- The `finish_i_` advance (lines 159–160) with its fuel instantiated to cover
the whole queue. -/
def advanceFinishFull (st : SequenceDispatcher) : SequenceDispatcher :=
  advanceFinish (st.data_.length - st.finish_i_) st

/-- Lines 161–163: raise `next_i_` to `finish_i_` when it trails. -/
def clampNext (st : SequenceDispatcher) : SequenceDispatcher :=
  if st.next_i_ < st.finish_i_ then { st with next_i_ := st.finish_i_ } else st

/-- The send loop (lines 164–190) with its fuel instantiated to cover the queue. -/
def sendLoopFull (st : SequenceDispatcher) : SequenceDispatcher :=
  sendLoop (st.data_.length - st.next_i_) st

/-- Lines 194–196: arm the idle-close timer when everything is finished and a
parent is registered. -/
def armIdleTimer (st : SequenceDispatcher) : SequenceDispatcher :=
  if st.finish_i_ = st.data_.length ∧ st.parent_present = true then
    { st with timer_ := some 5 }
  else st

/-- `SequenceDispatcher::loop` (lines 158–197). -/
def loopRun (st : SequenceDispatcher) : SequenceDispatcher :=
  armIdleTimer (tryShrink (sendLoopFull (clampNext (advanceFinishFull st))))

/-- `SequenceDispatcher::send_with_callback` (lines 44–50): cancel the idle
timer, enqueue a fresh `Start` node holding the query and its weak reference,
and drive the loop. -/
def submit (st : SequenceDispatcher) (q : Query) (cb : Nat) : SequenceDispatcher :=
  loopRun { st with timer_ := none,
                    data_ := st.data_ ++ [⟨QState.Start, some q.id, some q, cb, 0, 0, 0⟩] }

/-- The classification of lines 144–146 (and 316–318): does this result take the
local resend path? -/
def resendCheck (q : Query) : Bool :=
  q.is_error &&
    (q.error_code == ResendInvokeAfter ||
      (q.error_code == 400 &&
        (q.error_message == "MSG_WAIT_FAILED" || q.error_message == "MSG_WAIT_TIMEOUT")))

/-- `data.query_ = std::move(query)` at line 150. -/
def setNodeQuery (st : SequenceDispatcher) (i : Nat) (oq : Option Query) :
    SequenceDispatcher :=
  match st.data_[i]? with
  | none => st
  | some d => setNode st i { d with query_ := oq }

/-- The flood-propagation phase of `on_result` (lines 136–142): entered only when
the returned query's `last_timeout` is non-zero. -/
def onResultFlood (st1 : SequenceDispatcher) (pos : Nat) (q : Query) :
    SequenceDispatcher :=
  if q.last_timeout ≠ 0 then propagate q.last_timeout st1 (pos + 1) else st1

/-- The decision phase of `on_result` (lines 144–154), after the token has been
resolved: the local resend path restores the resent query into the node and runs
`do_resend`; every other result is deferred to the callback via
`try_resend_query`. -/
def onResultCore (st1 : SequenceDispatcher) (pos : Nat) (q : Query) :
    SequenceDispatcher :=
  if resendCheck q then
    doResend (setNodeQuery (onResultFlood st1 pos q) pos (some q.resend)) pos
  else
    tryResendQuery (onResultFlood st1 pos q) pos q

/-- `SequenceDispatcher::on_result` (lines 131–156): resolve the token, run the
flood propagation and the resend decision, then drive the loop. -/
def onResult (st : SequenceDispatcher) (tok : Nat) (q : Query) :
    Option SequenceDispatcher :=
  (dataFromToken st tok).map (fun pr => loopRun (onResultCore pr.1 pr.2 q))

/-- `SequenceDispatcher::on_resend_ok` (lines 99–104): restore the fulfilled
query into the node, run `do_resend`, drive the loop. -/
def onResendOk (st : SequenceDispatcher) (tok : Nat) (q : Query) :
    Option SequenceDispatcher :=
  (dataFromToken st tok).map
    (fun pr => loopRun (doResend (setNodeQuery pr.1 pr.2 (some q)) pr.2))

/-- `SequenceDispatcher::on_resend_error` (lines 106–110): finalise the node and
drive the loop. -/
def onResendError (st : SequenceDispatcher) (tok : Nat) : Option SequenceDispatcher :=
  (dataFromToken st tok).map (fun pr => loopRun (doFinish pr.1 pr.2))

/-- `SequenceDispatcher::timeout_expired` (lines 216–224). -/
def timeoutExpired (st : SequenceDispatcher) : Option SequenceDispatcher :=
  if st.finish_i_ ≠ st.data_.length then some st
  else if st.parent_present = false then none
  else some { st with timer_ := some 1, events := Ev.readyToClose :: st.events }

/-- The per-node effect of `tear_down` (lines 230–239): a node that still owns its
query is failed with the aborted error and finalised; a node whose query is in
transit is skipped. -/
def tearNode (d : Data) : Data :=
  match d.query_ with
  | none => d
  | some q => { d with state_ := QState.Finish, query_ := some (q.set_error requestAbortedError) }

/-- `SequenceDispatcher::tear_down` (lines 230–239); each finalised node notifies
the parent through `do_finish`. -/
def tearDown (st : SequenceDispatcher) : SequenceDispatcher :=
  { st with
    data_ := st.data_.map tearNode,
    events :=
      List.replicate
        (if st.parent_present then st.data_.countP (fun d => d.query_.isSome) else 0)
        Ev.parentResult ++ st.events }

/-- The inbound messages a resting `SequenceDispatcher` can receive: a submission,
a transport result, a resend-promise fulfilment (non-empty or empty), and the
idle timer. -/
inductive Msg
  | submit (q : Query) (cb : Nat)
  | result (tok : Nat) (q : Query)
  | resendOk (tok : Nat) (q : Query)
  | resendErr (tok : Nat)
  | timer

/-- One message-handler activation. -/
def applyMsg (st : SequenceDispatcher) : Msg → Option SequenceDispatcher
  | .submit q cb => some (submit st q cb)
  | .result tok q => onResult st tok q
  | .resendOk tok q => onResendOk st tok q
  | .resendErr tok => onResendError st tok
  | .timer => timeoutExpired st

/-- A sequence of message-handler activations. -/
def run (st : SequenceDispatcher) : List Msg → Option SequenceDispatcher
  | [] => some st
  | m :: ms => (applyMsg st m).bind fun st' => run st' ms

/-! ### The multi-chain dispatchers -/

/-- Update the value of the first binding of `k` in an association list. -/
def updateAssoc : List (Nat × Int) → Nat → Int → List (Nat × Int)
  | [], _, _ => []
  | (k', v') :: rest, k, v =>
    if k' = k then (k', v) :: rest else (k', v') :: updateAssoc rest k v

/-- Remove the first binding of `k` from an association list. -/
def eraseAssoc : List (Nat × Int) → Nat → List (Nat × Int)
  | [], _ => []
  | (k', v') :: rest, k =>
    if k' = k then rest else (k', v') :: eraseAssoc rest k

/-- `MultiSequenceDispatcherOld::send_with_callback` (lines 251–266) restricted to
its bookkeeping: the map `dispatchers_` from `chains[0]` to the per-child
outstanding count `cnt_`.  The two `CHECK`s reject a zero chain id and an empty
chain list. -/
def multiOldSend (m : List (Nat × Int)) (chains : List Nat) :
    Option (List (Nat × Int)) :=
  if ¬ chains.all (fun c => c ≠ 0) then none
  else
    match chains with
    | [] => none
    | sid :: _ =>
      match m.lookup sid with
      | some v => some (updateAssoc m sid (v + 1))
      | none => some (m ++ [(sid, 1)])

/-- `MultiSequenceDispatcherOld::on_result` (lines 268–272): decrement the child's
count; an unknown token fails the `CHECK`. -/
def multiOldOnResult (m : List (Nat × Int)) (tok : Nat) : Option (List (Nat × Int)) :=
  match m.lookup tok with
  | none => none
  | some v => some (updateAssoc m tok (v - 1))

/-- `MultiSequenceDispatcherOld::ready_to_close` (lines 274–281): erase the child
only when its count is zero. -/
def multiOldReadyToClose (m : List (Nat × Int)) (tok : Nat) :
    Option (List (Nat × Int)) :=
  match m.lookup tok with
  | none => none
  | some v => if v = 0 then some (eraseAssoc m tok) else some m

/-- `MultiSequenceDispatcherNewImpl::send_with_callback` (lines 285–297).  The
`ChainScheduler` lives outside `src/`; task creation is modelled as appending
the (chains, query) pair to the task list, per the spec's `create_task`.  The
single `CHECK` rejects a zero chain id; an empty chain list merely skips the
`session_rand` derivation. -/
def multiNewSend (tasks : List (List Nat × Query)) (q : Query) (chains : List Nat) :
    Option (List (List Nat × Query)) :=
  if ¬ chains.all (fun c => c ≠ 0) then none
  else
    let q1 :=
      match chains with
      | c0 :: _ => { q with session_rand := c0 / 2 ^ 10 % 2 ^ 32 }
      | [] => q
    some (tasks ++ [(chains, q1)])

/-- The branch condition of `MultiSequenceDispatcherNewImpl::on_result`
(lines 316–318), written out separately from `resendCheck`. -/
def multiNewResendCheck (q : Query) : Bool :=
  q.is_error &&
    (q.error_code == ResendInvokeAfter ||
      (q.error_code == 400 &&
        (q.error_message == "MSG_WAIT_FAILED" || q.error_message == "MSG_WAIT_TIMEOUT")))

/-! ### Derived definitions used by the verification -/

/-- The effect of `check_timeout` on the node it is applied to, as a pure function
on the slot (the dispatcher-level `checkTimeout` additionally books a `wait_cnt_`
slot and emits a callback event on the breach path). -/
def nodeAfterCheck (d : Data) : Data :=
  if d.state_ ≠ QState.Start then d
  else
    match d.query_ with
    | none => d
    | some q =>
      let q := { q with total_timeout := q.total_timeout + d.total_timeout_ }
      if q.total_timeout > q.total_timeout_limit then
        { d with total_timeout_ := 0, query_ := none, state_ := QState.Wait }
      else
        { d with total_timeout_ := 0, query_ := some q }

/-- The number of queue slots in state `Wait`. -/
def countW (l : List Data) : Nat :=
  l.countP (fun d => d.state_ == QState.Wait)

/-- `data_[0..fi)` holds only `Finish` nodes. -/
def FinPre (l : List Data) (fi : Nat) : Prop :=
  ∀ j d, l[j]? = some d → j < fi → d.state_ = QState.Finish

/-- The resting-state invariant: `wait_cnt_` counts the `Wait` nodes, the slots
below `finish_i_` are all `Finish`, and `finish_i_` is in range. -/
def Inv (st : SequenceDispatcher) : Prop :=
  st.wait_cnt_ = countW st.data_ ∧ FinPre st.data_ st.finish_i_ ∧
    st.finish_i_ ≤ st.data_.length

/-! ### Concrete inputs for witnesses and counterexamples -/

/-- A fresh query with the given id and timeout limit. -/
def qT (i : Nat) (limit : Int) : Query := ⟨i, 0, limit, 0, none, [], 0, 0⟩

/-- A node whose query is in flight at the transport. -/
def dWait : Data := ⟨QState.Wait, some 5, none, 0, 0, 0, 0⟩

/-- A freshly enqueued node owning its query. -/
def dStart (i : Nat) : Data := ⟨QState.Start, some i, some (qT i 100000), 0, 0, 0, 0⟩

/-- A finished, already-consumed node. -/
def dFin : Data := ⟨QState.Finish, none, none, 0, 0, 0, 0⟩

/-- A node mid-decision (only transiently observable). -/
def dDummy : Data := ⟨QState.Dummy, some 4, some (qT 4 100000), 0, 2, 0, 0⟩

/-- A dispatcher with one in-flight node and one enqueued node, about to dispatch
the latter. -/
def stC1 : SequenceDispatcher := ⟨[dWait, dStart 7], 0, 1, some 0, 3, 1, 1, 42, false, none, []⟩

/-- A dispatcher whose single node is mid-decision with the current generation. -/
def stC2 : SequenceDispatcher := ⟨[dDummy], 0, 0, some 0, 2, 0, 1, 0, false, none, []⟩

/-- A dispatcher ready to compact: four leading `Finish` nodes out of six. -/
def stC5 : SequenceDispatcher :=
  ⟨[dFin, dFin, dFin, dFin, dWait, dStart 9], 4, 5, some 4, 0, 1, 1, 0, false, none, []⟩

/-- A `Start` node far over its timeout budget. -/
def dBreach : Data := ⟨QState.Start, some 1, some ⟨1, 500, 400, 0, none, [], 0, 0⟩, 0, 0, 700, 1500⟩

/-- A dispatcher holding `dBreach` behind an in-flight node. -/
def stC6 : SequenceDispatcher := ⟨[dWait, dBreach], 0, 2, some 0, 0, 1, 1, 0, false, none, []⟩

/-- A dispatcher with a single in-flight node under token 1. -/
def stW1 : SequenceDispatcher := ⟨[dWait], 0, 1, some 0, 0, 1, 1, 0, false, none, []⟩

/-- A query carrying the server's out-of-order error. -/
def qWaitFailed : Query := { qT 5 100000 with error := some ⟨400, "MSG_WAIT_FAILED"⟩ }

/-- `stW1` after its token has been resolved: the node is mid-decision and the
`wait_cnt_` slot has been released. -/
def stW1d : SequenceDispatcher :=
  ⟨[⟨QState.Dummy, some 5, none, 0, 0, 0, 0⟩], 0, 1, some 0, 0, 0, 1, 0, false, none, []⟩

/-- Twelve submissions (the last two with a zero timeout budget) followed by a
flood-timeout result for the first query: the propagation books two extra
`wait_cnt_` slots on top of the ten in-flight dispatches. -/
def floodTrace : List Msg :=
  (List.range 12).map (fun i => Msg.submit (qT i (if i ≥ 10 then 0 else 100000)) 0) ++
    [Msg.result 1 { qT 0 100000 with last_timeout := 1000 }]

/-! ## List-level helpers -/

theorem countP_set_get {α} (p : α → Bool) (l : List α) (i : Nat) (a b : α)
    (h : l[i]? = some a) :
    (l.set i b).countP p + (if p a then 1 else 0) = l.countP p + (if p b then 1 else 0) := by
  induction l generalizing i with
  | nil => simp at h
  | cons x xs ih =>
    cases i with
    | zero =>
      simp only [List.getElem?_cons_zero, Option.some.injEq] at h
      subst h
      simp only [List.set_cons_zero, List.countP_cons]
      omega
    | succ n =>
      simp only [List.getElem?_cons_succ] at h
      simp only [List.set_cons_succ, List.countP_cons]
      have := ih n h
      omega

theorem finPre_set_of_ne_finish {l : List Data} {i : Nat} {d d' : Data} {fi : Nat}
    (h : l[i]? = some d) (hs : d.state_ ≠ QState.Finish) (hp : FinPre l fi) :
    FinPre (l.set i d') fi := by
  intro j e hj hlt
  rw [List.getElem?_set] at hj
  by_cases hij : i = j
  · subst hij
    exact absurd (hp _ _ h hlt) hs
  · rw [if_neg hij] at hj
    exact hp _ _ hj hlt

theorem finPre_set_finish {l : List Data} {i : Nat} {d' : Data} {fi : Nat}
    (hd' : d'.state_ = QState.Finish) (hp : FinPre l fi) :
    FinPre (l.set i d') fi := by
  intro j e hj hlt
  rw [List.getElem?_set] at hj
  by_cases hij : i = j
  · rw [if_pos hij] at hj
    split at hj
    · cases hj
      exact hd'
    · cases hj
  · rw [if_neg hij] at hj
    exact hp _ _ hj hlt

theorem finPre_set_same_state {l : List Data} {i : Nat} {d d' : Data} {fi : Nat}
    (h : l[i]? = some d) (hs : d'.state_ = d.state_) (hp : FinPre l fi) :
    FinPre (l.set i d') fi := by
  intro j e hj hlt
  rw [List.getElem?_set] at hj
  by_cases hij : i = j
  · subst hij
    have hilen : i < l.length := by
      rcases List.getElem?_eq_some.mp h with ⟨hl, _⟩
      exact hl
    rw [if_pos rfl, if_pos hilen] at hj
    cases hj
    rw [hs]
    exact hp _ _ h hlt
  · rw [if_neg hij] at hj
    exact hp _ _ hj hlt

theorem countW_take_of_finPre {l : List Data} {fi : Nat} (hp : FinPre l fi) :
    countW (l.take fi) = 0 := by
  unfold countW
  rw [List.countP_eq_zero]
  intro d hd
  rw [List.mem_iff_getElem?] at hd
  obtain ⟨j, hj⟩ := hd
  rw [List.getElem?_take] at hj
  split at hj
  · have := hp _ _ hj (by omega)
    simp [this]
  · cases hj

theorem countW_drop_of_finPre {l : List Data} {fi : Nat} (hp : FinPre l fi) :
    countW (l.drop fi) = countW l := by
  conv_rhs => rw [← List.take_append_drop fi l]
  unfold countW
  rw [List.countP_append]
  have h0 := countW_take_of_finPre hp
  unfold countW at h0
  omega

/-! ## Canonical forms of the helper operations -/

theorem tryResendQuery_eq {st : SequenceDispatcher} {i : Nat} {d : Data} (q : Query)
    (h : st.data_[i]? = some d) (hs : d.state_ = QState.Dummy) :
    tryResendQuery st i q =
      { st with data_ := st.data_.set i { d with state_ := QState.Wait },
                wait_cnt_ := st.wait_cnt_ + 1,
                events := Ev.resendAsk (i + st.id_offset_) q :: st.events } := by
  unfold tryResendQuery
  rw [h]
  simp [hs, setNode]

theorem checkTimeout_eq_none {st : SequenceDispatcher} {i : Nat}
    (h : st.data_[i]? = none) : checkTimeout st i = st := by
  unfold checkTimeout
  rw [h]

theorem checkTimeout_eq_of_not_start {st : SequenceDispatcher} {i : Nat} {d : Data}
    (h : st.data_[i]? = some d) (hs : d.state_ ≠ QState.Start) :
    checkTimeout st i = st := by
  unfold checkTimeout
  rw [h]
  simp [hs]

theorem checkTimeout_eq_of_no_query {st : SequenceDispatcher} {i : Nat} {d : Data}
    (h : st.data_[i]? = some d) (hs : d.state_ = QState.Start) (hq : d.query_ = none) :
    checkTimeout st i = st := by
  unfold checkTimeout
  rw [h]
  simp [hs, hq]

theorem checkTimeout_eq_no_breach {st : SequenceDispatcher} {i : Nat} {d : Data} {q : Query}
    (h : st.data_[i]? = some d) (hs : d.state_ = QState.Start) (hq : d.query_ = some q)
    (hle : q.total_timeout + d.total_timeout_ ≤ q.total_timeout_limit) :
    checkTimeout st i =
      { st with data_ := st.data_.set i (
          { d with total_timeout_ := 0,
                    query_ := some { q with total_timeout := q.total_timeout + d.total_timeout_ } }) } := by
  unfold checkTimeout
  rw [h]
  simp only [hs, hq, ne_eq, not_true_eq_false, if_false, ite_false, reduceIte, not_false_eq_true]
  rw [if_neg (by simpa using hle)]
  rfl

theorem checkTimeout_eq_breach {st : SequenceDispatcher} {i : Nat} {d : Data} {q : Query}
    (h : st.data_[i]? = some d) (hs : d.state_ = QState.Start) (hq : d.query_ = some q)
    (hgt : q.total_timeout + d.total_timeout_ > q.total_timeout_limit) :
    checkTimeout st i =
      { st with
        data_ := st.data_.set i (
          { d with total_timeout_ := 0, query_ := none, state_ := QState.Wait }),
        wait_cnt_ := st.wait_cnt_ + 1,
        events := Ev.resendAsk (i + st.id_offset_)
          ({ q with total_timeout := q.total_timeout + d.total_timeout_,
                    error := some ⟨429, floodMessage d.last_timeout_⟩ }) :: st.events } := by
  have hlen : i < st.data_.length := by
    rcases List.getElem?_eq_some.mp h with ⟨hl, _⟩
    exact hl
  unfold checkTimeout tryResendQuery
  rw [h]
  simp only [hs, hq, ne_eq, not_true_eq_false, if_false, ite_false, reduceIte, not_false_eq_true]
  rw [if_pos (by simpa using hgt)]
  simp [setNode, List.getElem?_set, hlen, List.set_set, Query.set_error]

theorem dataFromToken_inv {st st1 : SequenceDispatcher} {tok pos : Nat}
    (h : dataFromToken st tok = some (st1, pos)) :
    ∃ d, st.data_[pos]? = some d ∧ d.state_ = QState.Wait ∧ st.wait_cnt_ ≠ 0 ∧
      tok = pos + st.id_offset_ ∧
      st1 = { st with data_ := st.data_.set pos { d with state_ := QState.Dummy },
                      wait_cnt_ := st.wait_cnt_ - 1 } := by
  unfold dataFromToken at h
  by_cases htok : tok < st.id_offset_
  · rw [if_pos htok] at h
    cases h
  · rw [if_neg htok] at h
    cases hget : st.data_[tok - st.id_offset_]? with
    | none =>
      simp only [hget] at h
      exact Option.noConfusion h
    | some d =>
      simp only [hget] at h
      by_cases hw : d.state_ ≠ QState.Wait
      · rw [if_pos hw] at h
        cases h
      · rw [if_neg hw] at h
        by_cases hc : st.wait_cnt_ = 0
        · rw [if_pos hc] at h
          cases h
        · rw [if_neg hc] at h
          simp only [Option.some.injEq, Prod.mk.injEq] at h
          obtain ⟨hst1, hpos⟩ := h
          subst hpos
          refine ⟨d, hget, not_not.mp hw, hc, by omega, hst1.symm⟩

theorem doResendCore_eq_match {st : SequenceDispatcher} {i : Nat} {d : Data}
    (h : st.data_[i]? = some d) (hs : d.state_ = QState.Dummy)
    (hg : d.generation_ = st.generation_) :
    doResendCore st i =
      { st with data_ := st.data_.set i { d with state_ := QState.Start },
                next_i_ := st.finish_i_,
                generation_ := st.generation_ + 1,
                last_sent_i_ := none } := by
  unfold doResendCore
  rw [h]
  simp [hs, setNode, hg]

theorem doResendCore_eq_nomatch {st : SequenceDispatcher} {i : Nat} {d : Data}
    (h : st.data_[i]? = some d) (hs : d.state_ = QState.Dummy)
    (hg : d.generation_ ≠ st.generation_) :
    doResendCore st i =
      { st with data_ := st.data_.set i { d with state_ := QState.Start } } := by
  unfold doResendCore
  rw [h]
  simp [hs, setNode, hg]

theorem doFinish_eq {st : SequenceDispatcher} {i : Nat} {d : Data}
    (h : st.data_[i]? = some d) (hs : d.state_ = QState.Dummy) :
    doFinish st i =
      { st with data_ := st.data_.set i { d with state_ := QState.Finish },
                events := if st.parent_present then Ev.parentResult :: st.events
                          else st.events } := by
  unfold doFinish
  rw [h]
  simp only [hs, ne_eq, not_true_eq_false, if_false, ite_false, reduceIte, not_false_eq_true,
    setNode]
  split <;> rename_i hp <;> simp [hp]

theorem setNodeQuery_eq {st : SequenceDispatcher} {i : Nat} {d : Data} (oq : Option Query)
    (h : st.data_[i]? = some d) :
    setNodeQuery st i oq = { st with data_ := st.data_.set i { d with query_ := oq } } := by
  unfold setNodeQuery
  rw [h]
  rfl

/-- Evaluations of `nodeAfterCheck` under each guard. -/
theorem nodeAfterCheck_not_start {d : Data} (hs : d.state_ ≠ QState.Start) :
    nodeAfterCheck d = d := by
  unfold nodeAfterCheck
  simp [hs]

theorem nodeAfterCheck_no_query {d : Data} (hs : d.state_ = QState.Start)
    (hq : d.query_ = none) : nodeAfterCheck d = d := by
  unfold nodeAfterCheck
  simp [hs, hq]

theorem nodeAfterCheck_no_breach {d : Data} {q : Query} (hs : d.state_ = QState.Start)
    (hq : d.query_ = some q)
    (hle : q.total_timeout + d.total_timeout_ ≤ q.total_timeout_limit) :
    nodeAfterCheck d =
      { d with total_timeout_ := 0,
               query_ := some { q with total_timeout := q.total_timeout + d.total_timeout_ } } := by
  unfold nodeAfterCheck
  simp only [hs, hq, ne_eq, not_true_eq_false, if_false, ite_false, reduceIte, not_false_eq_true]
  rw [if_neg (by simpa using hle)]

theorem nodeAfterCheck_breach {d : Data} {q : Query} (hs : d.state_ = QState.Start)
    (hq : d.query_ = some q)
    (hgt : q.total_timeout + d.total_timeout_ > q.total_timeout_limit) :
    nodeAfterCheck d =
      { d with total_timeout_ := 0, query_ := none, state_ := QState.Wait } := by
  unfold nodeAfterCheck
  simp only [hs, hq, ne_eq, not_true_eq_false, if_false, ite_false, reduceIte, not_false_eq_true]
  rw [if_pos (by simpa using hgt)]

/-- Effect of a single slot overwrite on the `Wait` count. -/
theorem countW_set {l : List Data} {i : Nat} {d : Data} (d' : Data) (h : l[i]? = some d) :
    countW (l.set i d') + (if d.state_ == QState.Wait then 1 else 0) =
      countW l + (if d'.state_ == QState.Wait then 1 else 0) := by
  have := countP_set_get (fun d => d.state_ == QState.Wait) l i d d' h
  simpa [countW] using this

/-- The three possible outcomes of `checkTimeout`: no effect, an accumulation
without a breach, or a breach handing the node to `try_resend_query`. -/
theorem checkTimeout_shape (st : SequenceDispatcher) (i : Nat) :
    checkTimeout st i = st ∨
    (∃ d q, st.data_[i]? = some d ∧ d.state_ = QState.Start ∧ d.query_ = some q ∧
      checkTimeout st i =
        { st with data_ := st.data_.set i (
            { d with total_timeout_ := 0,
                     query_ := some { q with total_timeout := q.total_timeout + d.total_timeout_ } }) }) ∨
    (∃ d q, st.data_[i]? = some d ∧ d.state_ = QState.Start ∧ d.query_ = some q ∧
      checkTimeout st i =
        { st with
          data_ := st.data_.set i (
            { d with total_timeout_ := 0, query_ := none, state_ := QState.Wait }),
          wait_cnt_ := st.wait_cnt_ + 1,
          events := Ev.resendAsk (i + st.id_offset_)
            ({ q with total_timeout := q.total_timeout + d.total_timeout_,
                      error := some ⟨429, floodMessage d.last_timeout_⟩ }) :: st.events }) := by
  cases h : st.data_[i]? with
  | none => exact Or.inl (checkTimeout_eq_none h)
  | some d =>
    by_cases hs : d.state_ = QState.Start
    · cases hq : d.query_ with
      | none => exact Or.inl (checkTimeout_eq_of_no_query h hs hq)
      | some q =>
        by_cases hbr : q.total_timeout + d.total_timeout_ > q.total_timeout_limit
        · exact Or.inr (Or.inr ⟨d, q, rfl, hs, hq, checkTimeout_eq_breach h hs hq hbr⟩)
        · exact Or.inr (Or.inl ⟨d, q, rfl, hs, hq,
            checkTimeout_eq_no_breach h hs hq (by omega)⟩)
    · exact Or.inl (checkTimeout_eq_of_not_start h hs)

/-! ## Frame and invariant lemmas for the helpers -/

theorem checkTimeout_frame (st : SequenceDispatcher) (i : Nat) :
    (checkTimeout st i).data_.length = st.data_.length ∧
    (checkTimeout st i).generation_ = st.generation_ ∧
    (checkTimeout st i).finish_i_ = st.finish_i_ ∧
    (checkTimeout st i).next_i_ = st.next_i_ ∧
    (checkTimeout st i).last_sent_i_ = st.last_sent_i_ ∧
    (checkTimeout st i).id_offset_ = st.id_offset_ ∧
    (checkTimeout st i).parent_present = st.parent_present ∧
    (checkTimeout st i).session_rand_ = st.session_rand_ ∧
    (checkTimeout st i).timer_ = st.timer_ := by
  rcases checkTimeout_shape st i with he | ⟨d, q, _, _, _, he⟩ | ⟨d, q, _, _, _, he⟩ <;>
    rw [he] <;> simp

theorem checkTimeout_inv {st : SequenceDispatcher} (i : Nat) (hinv : Inv st) :
    Inv (checkTimeout st i) := by
  obtain ⟨hw, hp, hf⟩ := hinv
  rcases checkTimeout_shape st i with he | ⟨d, q, hget, hs, hq, he⟩ | ⟨d, q, hget, hs, hq, he⟩
  · rw [he]
    exact ⟨hw, hp, hf⟩
  · rw [he]
    refine ⟨?_, ?_, ?_⟩
    · show st.wait_cnt_ = countW (st.data_.set i (
        { d with total_timeout_ := 0,
                 query_ := some { q with total_timeout := q.total_timeout + d.total_timeout_ } }))
      have hcnt := countW_set
        ({ d with total_timeout_ := 0,
                  query_ := some { q with total_timeout := q.total_timeout + d.total_timeout_ } })
        hget
      dsimp only at hcnt
      omega
    · exact finPre_set_same_state hget rfl hp
    · show st.finish_i_ ≤ (st.data_.set i _).length
      simpa using hf
  · rw [he]
    refine ⟨?_, ?_, ?_⟩
    · show st.wait_cnt_ + 1 = countW (st.data_.set i (
        { d with total_timeout_ := 0, query_ := none, state_ := QState.Wait }))
      have hcnt :=
        countW_set ({ d with total_timeout_ := 0, query_ := none, state_ := QState.Wait }) hget
      rw [hs] at hcnt
      simp at hcnt
      omega
    · exact finPre_set_of_ne_finish hget (by rw [hs]; intro hc; cases hc) hp
    · show st.finish_i_ ≤ (st.data_.set i _).length
      simpa using hf

theorem checkTimeout_getElem_self (st : SequenceDispatcher) (i : Nat) :
    (checkTimeout st i).data_[i]? = (st.data_[i]?).map nodeAfterCheck := by
  cases h : st.data_[i]? with
  | none =>
    rw [checkTimeout_eq_none h, h]
    rfl
  | some d =>
    have hlen : i < st.data_.length := by
      rcases List.getElem?_eq_some.mp h with ⟨hl, _⟩
      exact hl
    by_cases hs : d.state_ = QState.Start
    · cases hq : d.query_ with
      | none =>
        rw [checkTimeout_eq_of_no_query h hs hq, h]
        simp [nodeAfterCheck_no_query hs hq]
      | some q =>
        by_cases hbr : q.total_timeout + d.total_timeout_ > q.total_timeout_limit
        · rw [checkTimeout_eq_breach h hs hq hbr]
          show (st.data_.set i _)[i]? = _
          simp [List.getElem?_set, hlen, nodeAfterCheck_breach hs hq hbr]
        · have hle : q.total_timeout + d.total_timeout_ ≤ q.total_timeout_limit := by omega
          rw [checkTimeout_eq_no_breach h hs hq hle]
          show (st.data_.set i _)[i]? = _
          simp [List.getElem?_set, hlen, nodeAfterCheck_no_breach hs hq hle]
    · rw [checkTimeout_eq_of_not_start h hs, h]
      simp [nodeAfterCheck_not_start hs]

theorem checkTimeout_getElem_ne (st : SequenceDispatcher) {i j : Nat} (hne : i ≠ j) :
    (checkTimeout st i).data_[j]? = st.data_[j]? := by
  rcases checkTimeout_shape st i with he | ⟨d, q, _, _, _, he⟩ | ⟨d, q, _, _, _, he⟩ <;>
    rw [he] <;> simp [List.getElem?_set, hne]

theorem tryResendQuery_inv {st : SequenceDispatcher} {i : Nat} {d : Data} (q : Query)
    (h : st.data_[i]? = some d) (hs : d.state_ = QState.Dummy) (hinv : Inv st) :
    Inv (tryResendQuery st i q) := by
  obtain ⟨hw, hp, hf⟩ := hinv
  rw [tryResendQuery_eq q h hs]
  refine ⟨?_, ?_, ?_⟩
  · show st.wait_cnt_ + 1 = countW (st.data_.set i { d with state_ := QState.Wait })
    have hcnt := countW_set ({ d with state_ := QState.Wait }) h
    rw [hs] at hcnt
    simp at hcnt
    omega
  · exact finPre_set_of_ne_finish h (by rw [hs]; intro hc; cases hc) hp
  · show st.finish_i_ ≤ (st.data_.set i _).length
    simpa using hf

theorem doResendCore_eq_nop {st : SequenceDispatcher} {i : Nat} {d : Data}
    (h : st.data_[i]? = some d) (hs : d.state_ ≠ QState.Dummy) :
    doResendCore st i = st := by
  unfold doResendCore
  rw [h]
  simp [hs]

theorem doResendCore_eq_none {st : SequenceDispatcher} {i : Nat}
    (h : st.data_[i]? = none) : doResendCore st i = st := by
  unfold doResendCore
  rw [h]

theorem doResendCore_inv {st : SequenceDispatcher} (i : Nat) (hinv : Inv st) :
    Inv (doResendCore st i) := by
  obtain ⟨hw, hp, hf⟩ := hinv
  cases h : st.data_[i]? with
  | none =>
    rw [doResendCore_eq_none h]
    exact ⟨hw, hp, hf⟩
  | some d =>
    by_cases hs : d.state_ = QState.Dummy
    · have hcnt := countW_set ({ d with state_ := QState.Start }) h
      rw [hs] at hcnt
      simp at hcnt
      have hpre : FinPre (st.data_.set i { d with state_ := QState.Start }) st.finish_i_ :=
        finPre_set_of_ne_finish h (by rw [hs]; intro hc; cases hc) hp
      by_cases hg : d.generation_ = st.generation_
      · rw [doResendCore_eq_match h hs hg]
        refine ⟨?_, hpre, ?_⟩
        · show st.wait_cnt_ = countW (st.data_.set i { d with state_ := QState.Start })
          omega
        · show st.finish_i_ ≤ (st.data_.set i _).length
          simpa using hf
      · rw [doResendCore_eq_nomatch h hs hg]
        refine ⟨?_, hpre, ?_⟩
        · show st.wait_cnt_ = countW (st.data_.set i { d with state_ := QState.Start })
          omega
        · show st.finish_i_ ≤ (st.data_.set i _).length
          simpa using hf
    · rw [doResendCore_eq_nop h hs]
      exact ⟨hw, hp, hf⟩

theorem tryResendQuery_frame (st : SequenceDispatcher) (i : Nat) (q : Query) :
    (tryResendQuery st i q).data_.length = st.data_.length ∧
    (tryResendQuery st i q).generation_ = st.generation_ ∧
    (tryResendQuery st i q).finish_i_ = st.finish_i_ ∧
    (tryResendQuery st i q).next_i_ = st.next_i_ ∧
    (tryResendQuery st i q).last_sent_i_ = st.last_sent_i_ ∧
    (tryResendQuery st i q).id_offset_ = st.id_offset_ ∧
    (tryResendQuery st i q).parent_present = st.parent_present ∧
    (tryResendQuery st i q).session_rand_ = st.session_rand_ ∧
    (tryResendQuery st i q).timer_ = st.timer_ := by
  unfold tryResendQuery
  cases st.data_[i]? with
  | none => simp
  | some d =>
    by_cases hs : d.state_ = QState.Dummy
    · simp [hs, setNode]
    · simp [hs]

theorem doFinish_eq_none {st : SequenceDispatcher} {i : Nat}
    (h : st.data_[i]? = none) : doFinish st i = st := by
  unfold doFinish
  rw [h]

theorem doFinish_eq_nop {st : SequenceDispatcher} {i : Nat} {d : Data}
    (h : st.data_[i]? = some d) (hs : d.state_ ≠ QState.Dummy) :
    doFinish st i = st := by
  unfold doFinish
  rw [h]
  simp [hs]

theorem doFinish_frame (st : SequenceDispatcher) (i : Nat) :
    (doFinish st i).data_.length = st.data_.length ∧
    (doFinish st i).generation_ = st.generation_ ∧
    (doFinish st i).finish_i_ = st.finish_i_ ∧
    (doFinish st i).next_i_ = st.next_i_ ∧
    (doFinish st i).last_sent_i_ = st.last_sent_i_ ∧
    (doFinish st i).id_offset_ = st.id_offset_ ∧
    (doFinish st i).parent_present = st.parent_present ∧
    (doFinish st i).wait_cnt_ = st.wait_cnt_ ∧
    (doFinish st i).session_rand_ = st.session_rand_ ∧
    (doFinish st i).timer_ = st.timer_ := by
  unfold doFinish
  cases st.data_[i]? with
  | none => simp
  | some d =>
    by_cases hs : d.state_ = QState.Dummy
    · by_cases hp : st.parent_present <;> simp [hs, hp, setNode]
    · simp [hs]

theorem doFinish_inv {st : SequenceDispatcher} (i : Nat) (hinv : Inv st) :
    Inv (doFinish st i) := by
  obtain ⟨hw, hp, hf⟩ := hinv
  cases h : st.data_[i]? with
  | none =>
    rw [doFinish_eq_none h]
    exact ⟨hw, hp, hf⟩
  | some d =>
    by_cases hs : d.state_ = QState.Dummy
    · rw [doFinish_eq h hs]
      have hcnt := countW_set ({ d with state_ := QState.Finish }) h
      rw [hs] at hcnt
      simp at hcnt
      refine ⟨?_, ?_, ?_⟩
      · show st.wait_cnt_ = countW (st.data_.set i { d with state_ := QState.Finish })
        omega
      · exact finPre_set_finish rfl hp
      · show st.finish_i_ ≤ (st.data_.set i _).length
        simpa using hf
    · rw [doFinish_eq_nop h hs]
      exact ⟨hw, hp, hf⟩

theorem setNodeQuery_frame (st : SequenceDispatcher) (i : Nat) (oq : Option Query) :
    (setNodeQuery st i oq).data_.length = st.data_.length ∧
    (setNodeQuery st i oq).generation_ = st.generation_ ∧
    (setNodeQuery st i oq).finish_i_ = st.finish_i_ ∧
    (setNodeQuery st i oq).next_i_ = st.next_i_ ∧
    (setNodeQuery st i oq).last_sent_i_ = st.last_sent_i_ ∧
    (setNodeQuery st i oq).id_offset_ = st.id_offset_ ∧
    (setNodeQuery st i oq).parent_present = st.parent_present ∧
    (setNodeQuery st i oq).wait_cnt_ = st.wait_cnt_ ∧
    (setNodeQuery st i oq).events = st.events ∧
    (setNodeQuery st i oq).session_rand_ = st.session_rand_ := by
  unfold setNodeQuery
  cases st.data_[i]? with
  | none => simp
  | some d => simp [setNode]

theorem setNodeQuery_inv {st : SequenceDispatcher} (i : Nat) (oq : Option Query)
    (hinv : Inv st) : Inv (setNodeQuery st i oq) := by
  obtain ⟨hw, hp, hf⟩ := hinv
  cases h : st.data_[i]? with
  | none =>
    unfold setNodeQuery
    rw [h]
    exact ⟨hw, hp, hf⟩
  | some d =>
    rw [setNodeQuery_eq oq h]
    have hcnt := countW_set ({ d with query_ := oq }) h
    refine ⟨?_, ?_, ?_⟩
    · show st.wait_cnt_ = countW (st.data_.set i { d with query_ := oq })
      dsimp only at hcnt
      omega
    · exact finPre_set_same_state h rfl hp
    · show st.finish_i_ ≤ (st.data_.set i _).length
      simpa using hf

theorem dispatchAt_frame (st : SequenceDispatcher) :
    (dispatchAt st).data_.length = st.data_.length ∧
    (dispatchAt st).generation_ = st.generation_ ∧
    (dispatchAt st).finish_i_ = st.finish_i_ ∧
    (dispatchAt st).id_offset_ = st.id_offset_ ∧
    (dispatchAt st).parent_present = st.parent_present ∧
    (dispatchAt st).session_rand_ = st.session_rand_ ∧
    (dispatchAt st).timer_ = st.timer_ := by
  unfold dispatchAt
  cases st.data_[st.next_i_]? with
  | none => simp
  | some d =>
    cases hq : d.query_ with
    | none => simp [hq]
    | some q => simp [hq, setNode]

theorem tryShrink_frame (st : SequenceDispatcher) :
    (tryShrink st).generation_ = st.generation_ ∧
    (tryShrink st).wait_cnt_ = st.wait_cnt_ ∧
    (tryShrink st).parent_present = st.parent_present ∧
    (tryShrink st).session_rand_ = st.session_rand_ ∧
    (tryShrink st).id_offset_ ≥ st.id_offset_ ∧
    (tryShrink st).timer_ = st.timer_ ∧
    (tryShrink st).events = st.events := by
  unfold tryShrink
  split <;> simp

theorem advanceFinish_frame : ∀ (fuel : Nat) (st : SequenceDispatcher),
    (advanceFinish fuel st).data_ = st.data_ ∧
    (advanceFinish fuel st).next_i_ = st.next_i_ ∧
    (advanceFinish fuel st).last_sent_i_ = st.last_sent_i_ ∧
    (advanceFinish fuel st).generation_ = st.generation_ ∧
    (advanceFinish fuel st).wait_cnt_ = st.wait_cnt_ ∧
    (advanceFinish fuel st).id_offset_ = st.id_offset_ ∧
    (advanceFinish fuel st).parent_present = st.parent_present ∧
    (advanceFinish fuel st).session_rand_ = st.session_rand_ ∧
    (advanceFinish fuel st).timer_ = st.timer_ ∧
    (advanceFinish fuel st).events = st.events ∧
    st.finish_i_ ≤ (advanceFinish fuel st).finish_i_ := by
  intro fuel
  induction fuel with
  | zero => intro st; simp [advanceFinish]
  | succ n ih =>
    intro st
    unfold advanceFinish
    cases st.data_[st.finish_i_]? with
    | none => simp
    | some d =>
      by_cases hs : d.state_ = QState.Finish
      · simp only [hs, if_true, reduceIte]
        have := ih { st with finish_i_ := st.finish_i_ + 1 }
        refine ⟨this.1, this.2.1, this.2.2.1, this.2.2.2.1, this.2.2.2.2.1,
          this.2.2.2.2.2.1, this.2.2.2.2.2.2.1, this.2.2.2.2.2.2.2.1,
          this.2.2.2.2.2.2.2.2.1, this.2.2.2.2.2.2.2.2.2.1, ?_⟩
        have h2 := this.2.2.2.2.2.2.2.2.2.2
        simp at h2
        omega
      · simp [hs]

theorem sendLoop_frame : ∀ (fuel : Nat) (st : SequenceDispatcher),
    (sendLoop fuel st).data_.length = st.data_.length ∧
    (sendLoop fuel st).generation_ = st.generation_ ∧
    (sendLoop fuel st).finish_i_ = st.finish_i_ ∧
    (sendLoop fuel st).id_offset_ = st.id_offset_ ∧
    (sendLoop fuel st).parent_present = st.parent_present ∧
    (sendLoop fuel st).session_rand_ = st.session_rand_ ∧
    (sendLoop fuel st).timer_ = st.timer_ := by
  intro fuel
  induction fuel with
  | zero => intro st; simp [sendLoop]
  | succ n ih =>
    intro st
    unfold sendLoop
    cases st.data_[st.next_i_]? with
    | none => simp
    | some d =>
      by_cases hw : d.state_ = QState.Wait
      · simp [hw]
      · by_cases hcap : MAX_SIMULTANEOUS_WAIT ≤ st.wait_cnt_
        · simp [hw, hcap]
        · by_cases hfin : d.state_ = QState.Finish
          · simp only [hw, hcap, hfin, if_true, if_false, reduceIte]
            have := ih { st with next_i_ := st.next_i_ + 1 }
            simpa using this
          · simp only [hw, hcap, hfin, if_true, if_false, reduceIte]
            have h1 := ih (dispatchAt st)
            have h2 := dispatchAt_frame st
            exact ⟨h1.1.trans h2.1, h1.2.1.trans h2.2.1, h1.2.2.1.trans h2.2.2.1,
              h1.2.2.2.1.trans h2.2.2.2.1, h1.2.2.2.2.1.trans h2.2.2.2.2.1,
              h1.2.2.2.2.2.1.trans h2.2.2.2.2.2.1, h1.2.2.2.2.2.2.trans h2.2.2.2.2.2.2⟩

theorem propagateFrom_frame (lt : Int) : ∀ (fuel : Nat) (st : SequenceDispatcher) (i : Nat),
    (propagateFrom lt fuel st i).data_.length = st.data_.length ∧
    (propagateFrom lt fuel st i).generation_ = st.generation_ ∧
    (propagateFrom lt fuel st i).finish_i_ = st.finish_i_ ∧
    (propagateFrom lt fuel st i).next_i_ = st.next_i_ ∧
    (propagateFrom lt fuel st i).last_sent_i_ = st.last_sent_i_ ∧
    (propagateFrom lt fuel st i).id_offset_ = st.id_offset_ ∧
    (propagateFrom lt fuel st i).parent_present = st.parent_present ∧
    (propagateFrom lt fuel st i).session_rand_ = st.session_rand_ ∧
    (propagateFrom lt fuel st i).timer_ = st.timer_ := by
  intro fuel
  induction fuel with
  | zero => intro st i; simp [propagateFrom]
  | succ n ih =>
    intro st i
    unfold propagateFrom
    cases st.data_[i]? with
    | none => simp
    | some d =>
      have h1 := ih (checkTimeout (setNode st i (bumpNode lt d)) i) (i + 1)
      have h2 := checkTimeout_frame (setNode st i (bumpNode lt d)) i
      simp only [setNode, List.length_set] at h2
      exact ⟨h1.1.trans h2.1, h1.2.1.trans h2.2.1, h1.2.2.1.trans h2.2.2.1,
        h1.2.2.2.1.trans h2.2.2.2.1, h1.2.2.2.2.1.trans h2.2.2.2.2.1,
        h1.2.2.2.2.2.1.trans h2.2.2.2.2.2.1, h1.2.2.2.2.2.2.1.trans h2.2.2.2.2.2.2.1,
        h1.2.2.2.2.2.2.2.1.trans h2.2.2.2.2.2.2.2.1,
        h1.2.2.2.2.2.2.2.2.trans h2.2.2.2.2.2.2.2.2⟩

/-! ## Canonical form and invariance of the dispatch step -/

theorem dispatchAt_eq_none {st : SequenceDispatcher}
    (h : st.data_[st.next_i_]? = none) : dispatchAt st = st := by
  unfold dispatchAt
  rw [h]

theorem dispatchAt_eq_noquery {st : SequenceDispatcher} {d : Data}
    (h : st.data_[st.next_i_]? = some d) (hq : d.query_ = none) : dispatchAt st = st := by
  unfold dispatchAt
  rw [h]
  simp [hq]

theorem dispatchAt_eq {st : SequenceDispatcher} {d : Data} {q : Query}
    (h : st.data_[st.next_i_]? = some d) (hq : d.query_ = some q) :
    dispatchAt st =
      { st with
        data_ := st.data_.set st.next_i_ (
          { d with query_ := none, state_ := QState.Wait, generation_ := st.generation_ }),
        wait_cnt_ := st.wait_cnt_ + 1,
        last_sent_i_ := some st.next_i_,
        next_i_ := st.next_i_ + 1,
        events := Ev.dispatched (st.next_i_ + st.id_offset_) (sentQuery st q) :: st.events } := by
  unfold dispatchAt
  rw [h]
  simp [hq, setNode]

theorem dispatchAt_inv {st : SequenceDispatcher} {d : Data}
    (h : st.data_[st.next_i_]? = some d) (hsW : d.state_ ≠ QState.Wait)
    (hsF : d.state_ ≠ QState.Finish) (hinv : Inv st) : Inv (dispatchAt st) := by
  obtain ⟨hw, hp, hf⟩ := hinv
  cases hq : d.query_ with
  | none =>
    rw [dispatchAt_eq_noquery h hq]
    exact ⟨hw, hp, hf⟩
  | some q =>
    rw [dispatchAt_eq h hq]
    have hcnt := countW_set
      ({ d with query_ := none, state_ := QState.Wait, generation_ := st.generation_ }) h
    have hbw : (d.state_ == QState.Wait) = false := by
      simp [hsW]
    rw [hbw] at hcnt
    dsimp only at hcnt
    simp at hcnt
    refine ⟨?_, ?_, ?_⟩
    · show st.wait_cnt_ + 1 = countW (st.data_.set st.next_i_ _)
      omega
    · exact finPre_set_of_ne_finish h hsF hp
    · show st.finish_i_ ≤ (st.data_.set st.next_i_ _).length
      simpa using hf

theorem sendLoop_inv : ∀ (fuel : Nat) (st : SequenceDispatcher), Inv st →
    Inv (sendLoop fuel st) := by
  intro fuel
  induction fuel with
  | zero => intro st hinv; simpa [sendLoop] using hinv
  | succ n ih =>
    intro st hinv
    unfold sendLoop
    cases h : st.data_[st.next_i_]? with
    | none => exact hinv
    | some d =>
      by_cases hwst : d.state_ = QState.Wait
      · simp only [hwst, if_true, reduceIte]
        exact hinv
      · by_cases hcap : MAX_SIMULTANEOUS_WAIT ≤ st.wait_cnt_
        · simp only [hwst, hcap, if_true, if_false, reduceIte]
          exact hinv
        · by_cases hfin : d.state_ = QState.Finish
          · simp only [hwst, hcap, hfin, if_true, if_false, reduceIte]
            exact ih _ hinv
          · simp only [hwst, hcap, hfin, if_true, if_false, reduceIte]
            exact ih _ (dispatchAt_inv h hwst hfin hinv)

theorem advanceFinish_inv : ∀ (fuel : Nat) (st : SequenceDispatcher), Inv st →
    Inv (advanceFinish fuel st) := by
  intro fuel
  induction fuel with
  | zero => intro st hinv; simpa [advanceFinish] using hinv
  | succ n ih =>
    intro st hinv
    obtain ⟨hw, hp, hf⟩ := hinv
    unfold advanceFinish
    cases h : st.data_[st.finish_i_]? with
    | none => exact ⟨hw, hp, hf⟩
    | some d =>
      by_cases hs : d.state_ = QState.Finish
      · simp only [hs, if_true, reduceIte]
        refine ih _ ⟨hw, ?_, ?_⟩
        · intro j e hj hlt
          dsimp only at hj hlt
          rcases Nat.lt_or_ge j st.finish_i_ with hj2 | hj2
          · exact hp _ _ hj hj2
          · have hje : j = st.finish_i_ := by omega
            subst hje
            rw [hj] at h
            cases h
            exact hs
        · show st.finish_i_ + 1 ≤ st.data_.length
          have hlen : st.finish_i_ < st.data_.length := by
            rcases List.getElem?_eq_some.mp h with ⟨hl, _⟩
            exact hl
          omega
      · simp only [hs, if_false, reduceIte]
        exact ⟨hw, hp, hf⟩

theorem tryShrink_eq_nop {st : SequenceDispatcher}
    (h : ¬ (st.finish_i_ * 2 > st.data_.length ∧ st.data_.length > 5)) :
    tryShrink st = st := by
  unfold tryShrink
  rw [if_neg h]

theorem tryShrink_eq {st : SequenceDispatcher}
    (h : st.finish_i_ * 2 > st.data_.length ∧ st.data_.length > 5) :
    tryShrink st =
      { st with
        data_ := st.data_.drop st.finish_i_,
        next_i_ := st.next_i_ - st.finish_i_,
        last_sent_i_ :=
          match st.last_sent_i_ with
          | some j => if st.finish_i_ ≤ j then some (j - st.finish_i_) else none
          | none => none,
        id_offset_ := st.id_offset_ + st.finish_i_,
        finish_i_ := 0 } := by
  unfold tryShrink
  rw [if_pos h]

theorem tryShrink_inv {st : SequenceDispatcher} (hinv : Inv st) : Inv (tryShrink st) := by
  obtain ⟨hw, hp, hf⟩ := hinv
  by_cases h : st.finish_i_ * 2 > st.data_.length ∧ st.data_.length > 5
  · rw [tryShrink_eq h]
    refine ⟨?_, ?_, ?_⟩
    · show st.wait_cnt_ = countW (st.data_.drop st.finish_i_)
      rw [countW_drop_of_finPre hp]
      exact hw
    · intro j e hj hlt
      dsimp only at hlt
      omega
    · show (0 : Nat) ≤ _
      omega
  · rw [tryShrink_eq_nop h]
    exact ⟨hw, hp, hf⟩

theorem clampNext_inv {st : SequenceDispatcher} (hinv : Inv st) : Inv (clampNext st) := by
  unfold clampNext
  split
  · exact hinv
  · exact hinv

theorem armIdleTimer_inv {st : SequenceDispatcher} (hinv : Inv st) :
    Inv (armIdleTimer st) := by
  unfold armIdleTimer
  split
  · exact hinv
  · exact hinv

theorem loopRun_inv {st : SequenceDispatcher} (hinv : Inv st) : Inv (loopRun st) :=
  armIdleTimer_inv (tryShrink_inv (sendLoop_inv _ _ (clampNext_inv
    (advanceFinish_inv _ st hinv))))

theorem tryResendQuery_eq_none {st : SequenceDispatcher} {i : Nat} (q : Query)
    (h : st.data_[i]? = none) : tryResendQuery st i q = st := by
  unfold tryResendQuery
  rw [h]

theorem tryResendQuery_eq_nop {st : SequenceDispatcher} {i : Nat} {d : Data} (q : Query)
    (h : st.data_[i]? = some d) (hs : d.state_ ≠ QState.Dummy) :
    tryResendQuery st i q = st := by
  unfold tryResendQuery
  rw [h]
  simp [hs]

theorem tryResendQuery_inv_any (st : SequenceDispatcher) (i : Nat) (q : Query)
    (hinv : Inv st) : Inv (tryResendQuery st i q) := by
  cases h : st.data_[i]? with
  | none =>
    rw [tryResendQuery_eq_none q h]
    exact hinv
  | some d =>
    by_cases hs : d.state_ = QState.Dummy
    · exact tryResendQuery_inv q h hs hinv
    · rw [tryResendQuery_eq_nop q h hs]
      exact hinv

theorem propagateFrom_inv (lt : Int) : ∀ (fuel : Nat) (st : SequenceDispatcher) (i : Nat),
    Inv st → Inv (propagateFrom lt fuel st i) := by
  intro fuel
  induction fuel with
  | zero => intro st i hinv; simpa [propagateFrom] using hinv
  | succ n ih =>
    intro st i hinv
    obtain ⟨hw, hp, hf⟩ := hinv
    unfold propagateFrom
    cases h : st.data_[i]? with
    | none => exact ⟨hw, hp, hf⟩
    | some d =>
      refine ih _ _ (checkTimeout_inv i ?_)
      have hcnt := countW_set (bumpNode lt d) h
      refine ⟨?_, ?_, ?_⟩
      · show st.wait_cnt_ = countW (st.data_.set i (bumpNode lt d))
        unfold bumpNode at hcnt ⊢
        dsimp only at hcnt
        omega
      · exact finPre_set_same_state h rfl hp
      · show st.finish_i_ ≤ (st.data_.set i _).length
        simpa using hf

/-! ## Handler-level invariance -/

theorem doResend_inv {st : SequenceDispatcher} (i : Nat) (hinv : Inv st) :
    Inv (doResend st i) :=
  checkTimeout_inv i (doResendCore_inv i hinv)

theorem onResultFlood_inv {st1 : SequenceDispatcher} (pos : Nat) (q : Query)
    (hinv : Inv st1) : Inv (onResultFlood st1 pos q) := by
  unfold onResultFlood
  split
  · unfold propagate
    exact propagateFrom_inv _ _ _ _ hinv
  · exact hinv

theorem onResultCore_inv {st1 : SequenceDispatcher} (pos : Nat) (q : Query)
    (hinv : Inv st1) : Inv (onResultCore st1 pos q) := by
  unfold onResultCore
  split
  · exact doResend_inv pos (setNodeQuery_inv pos _ (onResultFlood_inv pos q hinv))
  · exact tryResendQuery_inv_any _ pos q (onResultFlood_inv pos q hinv)

theorem dataFromToken_st1_inv {st st1 : SequenceDispatcher} {tok pos : Nat}
    (h : dataFromToken st tok = some (st1, pos)) (hinv : Inv st) : Inv st1 := by
  obtain ⟨hw, hp, hf⟩ := hinv
  obtain ⟨d, hget, hs, hc, htok, hrec⟩ := dataFromToken_inv h
  subst hrec
  have hcnt := countW_set ({ d with state_ := QState.Dummy }) hget
  rw [hs] at hcnt
  simp at hcnt
  refine ⟨?_, ?_, ?_⟩
  · show st.wait_cnt_ - 1 = countW (st.data_.set pos { d with state_ := QState.Dummy })
    omega
  · exact finPre_set_of_ne_finish hget (by rw [hs]; intro hx; cases hx) hp
  · show st.finish_i_ ≤ (st.data_.set pos _).length
    simpa using hf

theorem submit_inv {st : SequenceDispatcher} (q : Query) (cb : Nat) (hinv : Inv st) :
    Inv (submit st q cb) := by
  obtain ⟨hw, hp, hf⟩ := hinv
  unfold submit
  refine loopRun_inv ⟨?_, ?_, ?_⟩
  · show st.wait_cnt_ = countW (st.data_ ++ [⟨QState.Start, some q.id, some q, cb, 0, 0, 0⟩])
    unfold countW at hw ⊢
    rw [List.countP_append]
    simp [hw]
  · intro j e hj hlt
    dsimp only at hj hlt
    rw [List.getElem?_append] at hj
    split at hj
    · exact hp _ _ hj hlt
    · rename_i hge
      exfalso
      omega
  · show st.finish_i_ ≤ (st.data_ ++ [_]).length
    simp
    omega

theorem timeoutExpired_inv {st st' : SequenceDispatcher}
    (h : timeoutExpired st = some st') (hinv : Inv st) : Inv st' := by
  unfold timeoutExpired at h
  split at h
  · cases h
    exact hinv
  · split at h
    · cases h
    · cases h
      exact ⟨hinv.1, hinv.2.1, hinv.2.2⟩

theorem onResult_inv {st st' : SequenceDispatcher} {tok : Nat} {q : Query}
    (h : onResult st tok q = some st') (hinv : Inv st) : Inv st' := by
  unfold onResult at h
  rw [Option.map_eq_some'] at h
  obtain ⟨⟨st1, pos⟩, hdt, hval⟩ := h
  subst hval
  exact loopRun_inv (onResultCore_inv pos q (dataFromToken_st1_inv hdt hinv))

theorem onResendOk_inv {st st' : SequenceDispatcher} {tok : Nat} {q : Query}
    (h : onResendOk st tok q = some st') (hinv : Inv st) : Inv st' := by
  unfold onResendOk at h
  rw [Option.map_eq_some'] at h
  obtain ⟨⟨st1, pos⟩, hdt, hval⟩ := h
  subst hval
  exact loopRun_inv (doResend_inv pos
    (setNodeQuery_inv pos (some q) (dataFromToken_st1_inv hdt hinv)))

theorem onResendError_inv {st st' : SequenceDispatcher} {tok : Nat}
    (h : onResendError st tok = some st') (hinv : Inv st) : Inv st' := by
  unfold onResendError at h
  rw [Option.map_eq_some'] at h
  obtain ⟨⟨st1, pos⟩, hdt, hval⟩ := h
  subst hval
  exact loopRun_inv (doFinish_inv pos (dataFromToken_st1_inv hdt hinv))

theorem applyMsg_inv {st st' : SequenceDispatcher} {m : Msg}
    (h : applyMsg st m = some st') (hinv : Inv st) : Inv st' := by
  cases m with
  | submit q cb =>
    have h' : some (submit st q cb) = some st' := h
    cases h'
    exact submit_inv q cb hinv
  | result tok q => exact onResult_inv h hinv
  | resendOk tok q => exact onResendOk_inv h hinv
  | resendErr tok => exact onResendError_inv h hinv
  | timer => exact timeoutExpired_inv h hinv

theorem run_inv : ∀ (msgs : List Msg) (st st' : SequenceDispatcher),
    Inv st → run st msgs = some st' → Inv st' := by
  intro msgs
  induction msgs with
  | nil =>
    intro st st' hinv h
    unfold run at h
    cases h
    exact hinv
  | cons m ms ih =>
    intro st st' hinv h
    unfold run at h
    cases ha : applyMsg st m with
    | none =>
      rw [ha] at h
      exact Option.noConfusion h
    | some st1 =>
      rw [ha] at h
      exact ih st1 st' (applyMsg_inv ha hinv) h

theorem init_inv (sr : Nat) (p : Bool) : Inv (SequenceDispatcher.init sr p) := by
  refine ⟨rfl, ?_, ?_⟩
  · intro j e hj hlt
    simp [SequenceDispatcher.init] at hj
  · exact Nat.le_refl _

/-! ## Pointwise description of the flood propagation -/

theorem propagateFrom_spec (lt : Int) : ∀ (fuel : Nat) (st : SequenceDispatcher) (i : Nat),
    (∀ j, j < i → (propagateFrom lt fuel st i).data_[j]? = st.data_[j]?) ∧
    (∀ j d, i ≤ j → j < i + fuel → st.data_[j]? = some d →
      (propagateFrom lt fuel st i).data_[j]? = some (nodeAfterCheck (bumpNode lt d))) ∧
    (∀ j, i + fuel ≤ j → (propagateFrom lt fuel st i).data_[j]? = st.data_[j]?) := by
  intro fuel
  induction fuel with
  | zero =>
    intro st i
    refine ⟨fun j _ => rfl, fun j d hij hlt _ => by omega, fun j _ => rfl⟩
  | succ n ih =>
    intro st i
    unfold propagateFrom
    cases h : st.data_[i]? with
    | none =>
      have hlen : st.data_.length ≤ i := by
        rw [← List.getElem?_eq_none_iff]
        exact h
      refine ⟨fun j _ => rfl, fun j d hij _ hget => ?_, fun j _ => rfl⟩
      exfalso
      have : j < st.data_.length := (List.getElem?_eq_some.mp hget).1
      omega
    | some d =>
      have hlen : i < st.data_.length := (List.getElem?_eq_some.mp h).1
      have hmid : ∀ j, j ≠ i →
          (checkTimeout (setNode st i (bumpNode lt d)) i).data_[j]? = st.data_[j]? := by
        intro j hne
        rw [checkTimeout_getElem_ne _ (fun he => hne he.symm)]
        show (st.data_.set i (bumpNode lt d))[j]? = st.data_[j]?
        rw [List.getElem?_set, if_neg (fun he => hne he.symm)]
      have hmide : (checkTimeout (setNode st i (bumpNode lt d)) i).data_[i]? =
          some (nodeAfterCheck (bumpNode lt d)) := by
        rw [checkTimeout_getElem_self]
        show ((st.data_.set i (bumpNode lt d))[i]?).map _ = _
        rw [List.getElem?_set, if_pos rfl, if_pos hlen]
        rfl
      obtain ⟨ih1, ih2, ih3⟩ := ih (checkTimeout (setNode st i (bumpNode lt d)) i) (i + 1)
      refine ⟨?_, ?_, ?_⟩
      · intro j hj
        rw [ih1 j (by omega)]
        exact hmid j (by omega)
      · intro j e hij hlt hget
        rcases Nat.eq_or_lt_of_le hij with heq | hlt2
        · subst heq
          rw [ih1 i (by omega), hmide]
          rw [h] at hget
          cases hget
          rfl
        · rw [ih2 j e hlt2 (by omega) ((hmid j (by omega)).trans hget)]
      · intro j hj
        rw [ih3 j (by omega)]
        exact hmid j (by omega)

theorem propagate_spec (lt : Int) (st : SequenceDispatcher) (i : Nat) :
    (∀ j, j < i → (propagate lt st i).data_[j]? = st.data_[j]?) ∧
    (∀ j d, i ≤ j → st.data_[j]? = some d →
      (propagate lt st i).data_[j]? = some (nodeAfterCheck (bumpNode lt d))) := by
  obtain ⟨h1, h2, h3⟩ := propagateFrom_spec lt (st.data_.length - i) st i
  refine ⟨h1, ?_⟩
  intro j d hij hget
  have hjlen : j < st.data_.length := (List.getElem?_eq_some.mp hget).1
  exact h2 j d hij (by omega) hget

/-! ## The event log only grows -/

theorem checkTimeout_events (st : SequenceDispatcher) (i : Nat) :
    st.events <:+ (checkTimeout st i).events := by
  rcases checkTimeout_shape st i with he | ⟨d, q, _, _, _, he⟩ | ⟨d, q, _, _, _, he⟩ <;>
    rw [he]
  exact List.suffix_cons _ _

theorem dispatchAt_events (st : SequenceDispatcher) :
    st.events <:+ (dispatchAt st).events := by
  cases h : st.data_[st.next_i_]? with
  | none =>
    rw [dispatchAt_eq_none h]
  | some d =>
    cases hq : d.query_ with
    | none =>
      rw [dispatchAt_eq_noquery h hq]
    | some q =>
      rw [dispatchAt_eq h hq]
      exact List.suffix_cons _ _

theorem sendLoop_events : ∀ (fuel : Nat) (st : SequenceDispatcher),
    st.events <:+ (sendLoop fuel st).events := by
  intro fuel
  induction fuel with
  | zero => intro st; exact List.suffix_refl _
  | succ n ih =>
    intro st
    unfold sendLoop
    cases h : st.data_[st.next_i_]? with
    | none => exact List.suffix_refl _
    | some d =>
      by_cases hw : d.state_ = QState.Wait
      · simp only [hw, if_true, reduceIte]
        exact List.suffix_refl _
      · by_cases hcap : MAX_SIMULTANEOUS_WAIT ≤ st.wait_cnt_
        · simp only [hw, hcap, if_true, if_false, reduceIte]
          exact List.suffix_refl _
        · by_cases hfin : d.state_ = QState.Finish
          · simp only [hw, hcap, hfin, if_true, if_false, reduceIte]
            exact ih { st with next_i_ := st.next_i_ + 1 }
          · simp only [hw, hcap, hfin, if_true, if_false, reduceIte]
            exact (dispatchAt_events st).trans (ih (dispatchAt st))

theorem loopRun_events (st : SequenceDispatcher) : st.events <:+ (loopRun st).events := by
  have ha := (advanceFinish_frame (st.data_.length - st.finish_i_) st).2.2.2.2.2.2.2.2.2.1
  have h1 : (clampNext (advanceFinishFull st)).events = st.events := by
    unfold clampNext advanceFinishFull
    split
    · simpa using ha
    · simpa using ha
  have h2 := sendLoop_events ((clampNext (advanceFinishFull st)).data_.length -
      (clampNext (advanceFinishFull st)).next_i_) (clampNext (advanceFinishFull st))
  rw [h1] at h2
  have h3 : (loopRun st).events = (sendLoopFull (clampNext (advanceFinishFull st))).events := by
    unfold loopRun armIdleTimer
    split <;> exact (tryShrink_frame _).2.2.2.2.2.2
  rw [h3]
  exact h2

/-! ## Generation monotonicity -/

theorem doResendCore_gen (st : SequenceDispatcher) (i : Nat) :
    st.generation_ ≤ (doResendCore st i).generation_ := by
  cases h : st.data_[i]? with
  | none =>
    rw [doResendCore_eq_none h]
  | some d =>
    by_cases hs : d.state_ = QState.Dummy
    · by_cases hg : d.generation_ = st.generation_
      · rw [doResendCore_eq_match h hs hg]
        show st.generation_ ≤ st.generation_ + 1
        omega
      · rw [doResendCore_eq_nomatch h hs hg]
    · rw [doResendCore_eq_nop h hs]

theorem doResend_gen (st : SequenceDispatcher) (i : Nat) :
    st.generation_ ≤ (doResend st i).generation_ := by
  unfold doResend
  rw [(checkTimeout_frame (doResendCore st i) i).2.1]
  exact doResendCore_gen st i

theorem clampNext_gen (st : SequenceDispatcher) :
    (clampNext st).generation_ = st.generation_ := by
  unfold clampNext
  split <;> rfl

theorem armIdleTimer_gen (st : SequenceDispatcher) :
    (armIdleTimer st).generation_ = st.generation_ := by
  unfold armIdleTimer
  split <;> rfl

theorem loopRun_gen (st : SequenceDispatcher) :
    (loopRun st).generation_ = st.generation_ := by
  unfold loopRun
  rw [armIdleTimer_gen, (tryShrink_frame _).1]
  unfold sendLoopFull
  rw [(sendLoop_frame _ _).2.1, clampNext_gen]
  unfold advanceFinishFull
  exact (advanceFinish_frame _ _).2.2.2.1

theorem onResultFlood_gen (st1 : SequenceDispatcher) (pos : Nat) (q : Query) :
    (onResultFlood st1 pos q).generation_ = st1.generation_ := by
  unfold onResultFlood
  split
  · unfold propagate
    exact (propagateFrom_frame _ _ _ _).2.1
  · rfl

theorem onResultCore_gen (st1 : SequenceDispatcher) (pos : Nat) (q : Query) :
    st1.generation_ ≤ (onResultCore st1 pos q).generation_ := by
  unfold onResultCore
  split
  · have h1 := doResend_gen (setNodeQuery (onResultFlood st1 pos q) pos (some q.resend)) pos
    have h2 := (setNodeQuery_frame (onResultFlood st1 pos q) pos (some q.resend)).2.1
    have h3 := onResultFlood_gen st1 pos q
    omega
  · have h2 := (tryResendQuery_frame (onResultFlood st1 pos q) pos q).2.1
    rw [h2, onResultFlood_gen]

theorem dataFromToken_gen {st st1 : SequenceDispatcher} {tok pos : Nat}
    (h : dataFromToken st tok = some (st1, pos)) : st1.generation_ = st.generation_ := by
  obtain ⟨d, _, _, _, _, hrec⟩ := dataFromToken_inv h
  rw [hrec]

theorem applyMsg_gen {st st' : SequenceDispatcher} {m : Msg}
    (h : applyMsg st m = some st') : st.generation_ ≤ st'.generation_ := by
  cases m with
  | submit q cb =>
    have h' : some (submit st q cb) = some st' := h
    cases h'
    unfold submit
    rw [loopRun_gen]
  | result tok q =>
    have h' : onResult st tok q = some st' := h
    unfold onResult at h'
    rw [Option.map_eq_some'] at h'
    obtain ⟨⟨st1, pos⟩, hdt, hval⟩ := h'
    subst hval
    rw [loopRun_gen]
    have hco := onResultCore_gen st1 pos q
    rw [dataFromToken_gen hdt] at hco
    exact hco
  | resendOk tok q =>
    have h' : onResendOk st tok q = some st' := h
    unfold onResendOk at h'
    rw [Option.map_eq_some'] at h'
    obtain ⟨⟨st1, pos⟩, hdt, hval⟩ := h'
    subst hval
    rw [loopRun_gen]
    have h1 := doResend_gen (setNodeQuery st1 pos (some q)) pos
    have h2 := (setNodeQuery_frame st1 pos (some q)).2.1
    have h3 := dataFromToken_gen hdt
    dsimp only at h1 h2 ⊢
    omega
  | resendErr tok =>
    have h' : onResendError st tok = some st' := h
    unfold onResendError at h'
    rw [Option.map_eq_some'] at h'
    obtain ⟨⟨st1, pos⟩, hdt, hval⟩ := h'
    subst hval
    rw [loopRun_gen, (doFinish_frame st1 pos).2.1, dataFromToken_gen hdt]
  | timer =>
    have h' : timeoutExpired st = some st' := h
    unfold timeoutExpired at h'
    split at h'
    · cases h'
      exact Nat.le_refl _
    · split at h'
      · exact Option.noConfusion h'
      · cases h'
        exact Nat.le_refl _

theorem invokeAfterRef_of_none {st : SequenceDispatcher} (h : st.last_sent_i_ = none) :
    invokeAfterRef st = none := by
  unfold invokeAfterRef
  rw [h]

theorem invokeAfterRef_of_some {st : SequenceDispatcher} {j : Nat} {dj : Data}
    (h : st.last_sent_i_ = some j) (h2 : st.data_[j]? = some dj) :
    invokeAfterRef st = if dj.state_ = QState.Wait then dj.net_query_ref_ else none := by
  unfold invokeAfterRef
  simp only [h, h2]

theorem invokeAfterRef_of_oob {st : SequenceDispatcher} {j : Nat}
    (h : st.last_sent_i_ = some j) (h2 : st.data_[j]? = none) :
    invokeAfterRef st = none := by
  unfold invokeAfterRef
  simp only [h, h2]

/-! ## The claims -/

/-- C1: when the send loop dispatches the query at position `next_i_` from state
`Start`, the dispatched query's invoke-after is the weak reference of the node
at `last_sent_i_` if that index is defined and the node is still in `Wait`, and
the empty list otherwise; its `last_timeout` is zeroed; and afterwards the node
is in `Wait` with its query surrendered, `wait_cnt_` is incremented, the node's
generation equals the current generation, and `last_sent_i_` equals `next_i_`. -/
theorem loop_dispatch_from_start (st : SequenceDispatcher) (d : Data) (q : Query)
    (hd : st.data_[st.next_i_]? = some d) (hstart : d.state_ = QState.Start)
    (hq : d.query_ = some q) :
    ((∀ j dj, st.last_sent_i_ = some j → st.data_[j]? = some dj →
        dj.state_ = QState.Wait →
        (dispatchAt st).events =
          Ev.dispatched (st.next_i_ + st.id_offset_)
            ({ q with invoke_after := dj.net_query_ref_.toList, last_timeout := 0,
                      session_rand := st.session_rand_ }) :: st.events) ∧
      (((∀ j, st.last_sent_i_ = some j → ∀ dj, st.data_[j]? = some dj →
          dj.state_ ≠ QState.Wait) ∨ st.last_sent_i_ = none) →
        (dispatchAt st).events =
          Ev.dispatched (st.next_i_ + st.id_offset_)
            ({ q with invoke_after := [], last_timeout := 0,
                      session_rand := st.session_rand_ }) :: st.events)) ∧
    (dispatchAt st).data_[st.next_i_]? =
      some { d with query_ := none, state_ := QState.Wait, generation_ := st.generation_ } ∧
    (dispatchAt st).wait_cnt_ = st.wait_cnt_ + 1 ∧
    (dispatchAt st).last_sent_i_ = some st.next_i_ := by
  have hlen : st.next_i_ < st.data_.length := (List.getElem?_eq_some.mp hd).1
  have heq := dispatchAt_eq hd hq
  refine ⟨⟨?_, ?_⟩, ?_, ?_, ?_⟩
  · intro j dj hls hdj hw
    rw [heq]
    have hia : invokeAfterRef st = dj.net_query_ref_ := by
      rw [invokeAfterRef_of_some hls hdj, if_pos hw]
    show Ev.dispatched _ (sentQuery st q) :: st.events = _
    unfold sentQuery
    rw [hia]
  · intro hcase
    rw [heq]
    have hia : invokeAfterRef st = none := by
      rcases hcase with hall | hnone
      · cases hls : st.last_sent_i_ with
        | none => exact invokeAfterRef_of_none hls
        | some j =>
          cases hdj : st.data_[j]? with
          | none => exact invokeAfterRef_of_oob hls hdj
          | some dj =>
            rw [invokeAfterRef_of_some hls hdj, if_neg (hall j hls dj hdj)]
      · exact invokeAfterRef_of_none hnone
    show Ev.dispatched _ (sentQuery st q) :: st.events = _
    unfold sentQuery
    rw [hia]
    rfl
  · rw [heq]
    show (st.data_.set st.next_i_ _)[st.next_i_]? = _
    rw [List.getElem?_set, if_pos rfl, if_pos hlen]
  · rw [heq]
  · rw [heq]

/-- C1 witness at `stC1`: the enqueued node at position 1 is dispatched after
the in-flight node 0, carrying node 0's weak reference. -/
theorem loop_dispatch_from_start_witness :
    (dispatchAt stC1).events =
      Ev.dispatched (stC1.next_i_ + stC1.id_offset_)
        ({ qT 7 100000 with invoke_after := dWait.net_query_ref_.toList, last_timeout := 0,
                            session_rand := stC1.session_rand_ }) :: stC1.events ∧
    (dispatchAt stC1).data_[stC1.next_i_]? =
      some { dStart 7 with query_ := none, state_ := QState.Wait,
                           generation_ := stC1.generation_ } ∧
    (dispatchAt stC1).wait_cnt_ = stC1.wait_cnt_ + 1 ∧
    (dispatchAt stC1).last_sent_i_ = some stC1.next_i_ := by
  have h := loop_dispatch_from_start stC1 (dStart 7) (qT 7 100000) (by rfl) (by rfl) (by rfl)
  exact ⟨h.1.1 0 dWait rfl rfl rfl, h.2.1, h.2.2.1, h.2.2.2⟩

/-- C2: `do_resend` sets the node's state to `Start`, and exactly when the
node's generation equals the current generation it moves `next_i_` back to
`finish_i_`, advances the generation by exactly one and invalidates
`last_sent_i_`; otherwise it leaves those three fields alone.  Moreover the
generation is monotonically non-decreasing across every message handler. -/
theorem do_resend_generation :
    (∀ (st : SequenceDispatcher) (i : Nat) (d : Data),
      st.data_[i]? = some d → d.state_ = QState.Dummy →
      (doResendCore st i).data_[i]? = some { d with state_ := QState.Start } ∧
      (((doResendCore st i).next_i_ = st.finish_i_ ∧
        (doResendCore st i).generation_ = st.generation_ + 1 ∧
        (doResendCore st i).last_sent_i_ = none) ↔ d.generation_ = st.generation_) ∧
      (d.generation_ ≠ st.generation_ →
        (doResendCore st i).next_i_ = st.next_i_ ∧
        (doResendCore st i).generation_ = st.generation_ ∧
        (doResendCore st i).last_sent_i_ = st.last_sent_i_)) ∧
    (∀ (st st' : SequenceDispatcher) (m : Msg), applyMsg st m = some st' →
      st.generation_ ≤ st'.generation_) := by
  constructor
  · intro st i d hget hs
    have hlen : i < st.data_.length := (List.getElem?_eq_some.mp hget).1
    by_cases hg : d.generation_ = st.generation_
    · rw [doResendCore_eq_match hget hs hg]
      refine ⟨?_, ?_, ?_⟩
      · show (st.data_.set i _)[i]? = _
        rw [List.getElem?_set, if_pos rfl, if_pos hlen]
      · exact ⟨fun _ => hg, fun _ => ⟨rfl, rfl, rfl⟩⟩
      · intro hne
        exact absurd hg hne
    · rw [doResendCore_eq_nomatch hget hs hg]
      refine ⟨?_, ?_, ?_⟩
      · show (st.data_.set i _)[i]? = _
        rw [List.getElem?_set, if_pos rfl, if_pos hlen]
      · constructor
        · rintro ⟨-, hgen, -⟩
          dsimp only at hgen
          omega
        · intro hgg
          exact absurd hgg hg
      · intro _
        exact ⟨rfl, rfl, rfl⟩
  · intro st st' m h
    exact applyMsg_gen h

/-- C2 witness at `stC2`: the node's generation matches, so the restart moves
`next_i_` to `finish_i_`, bumps the generation by one and drops `last_sent_i_`;
and a timer message keeps the generation unchanged. -/
theorem do_resend_generation_witness :
    (doResendCore stC2 0).next_i_ = stC2.finish_i_ ∧
    (doResendCore stC2 0).generation_ = stC2.generation_ + 1 ∧
    (doResendCore stC2 0).last_sent_i_ = none ∧
    (doResendCore stC2 0).data_[0]? = some { dDummy with state_ := QState.Start } ∧
    stC2.generation_ ≤ stC2.generation_ := by
  have h1 := (do_resend_generation.1 stC2 0 dDummy rfl rfl)
  have h2 := h1.2.1.mpr rfl
  exact ⟨h2.1, h2.2.1, h2.2.2, h1.1, do_resend_generation.2 stC2 stC2 Msg.timer rfl⟩

/-- C3: when `on_result` observes a non-zero `last_timeout` on the returned
query, the propagation phase leaves every node at position `≤ pos` untouched,
and every node at a position `> pos` has the timeout added to its
`total_timeout_`, stored as its `last_timeout_`, and `check_timeout` applied
(the per-node effect of which is `nodeAfterCheck`). -/
theorem on_result_flood_propagation (st1 : SequenceDispatcher) (pos : Nat) (q : Query)
    (hlt : q.last_timeout ≠ 0) :
    (∀ j, j ≤ pos → (onResultFlood st1 pos q).data_[j]? = st1.data_[j]?) ∧
    (∀ j d, pos < j → st1.data_[j]? = some d →
      (onResultFlood st1 pos q).data_[j]? =
        some (nodeAfterCheck (bumpNode q.last_timeout d))) := by
  unfold onResultFlood
  rw [if_pos hlt]
  obtain ⟨h1, h2⟩ := propagate_spec q.last_timeout st1 (pos + 1)
  exact ⟨fun j hj => h1 j (by omega), fun j d hj hget => h2 j d (by omega) hget⟩

/-- C3 witness at `stC6`: a flood timeout of one unit reported at position 0
leaves node 0 alone and pushes node 1 (over its budget) through
`check_timeout`. -/
theorem on_result_flood_propagation_witness :
    (onResultFlood stC6 0 { qT 0 100000 with last_timeout := 1000 }).data_[0]? =
      stC6.data_[0]? ∧
    (onResultFlood stC6 0 { qT 0 100000 with last_timeout := 1000 }).data_[1]? =
      some (nodeAfterCheck (bumpNode 1000 dBreach)) := by
  have h := on_result_flood_propagation stC6 0 { qT 0 100000 with last_timeout := 1000 }
    (by decide)
  exact ⟨h.1 0 (by decide), h.2 1 dBreach (by decide) rfl⟩

/-- C4, counterexample: starting from an empty dispatcher, twelve submissions
followed by one flood-timeout result leave the dispatcher at rest with
`wait_cnt_ = 12`, exceeding `MAX_SIMULTANEOUS_WAIT = 10`: the claimed bound is
false (the in-flight cap only throttles the send loop, not the resend waits
booked by the timeout breaches of `check_timeout`). -/
theorem wait_cnt_bound_cex :
    (run (SequenceDispatcher.init 0 false) floodTrace).map (fun s => s.wait_cnt_) =
      some 12 ∧
    ¬ (12 ≤ MAX_SIMULTANEOUS_WAIT) := by
  constructor
  · decide
  · decide

/-- C4, amended: at every resting point reachable by submissions, transport
results, resend-promise fulfilments and timer events, `wait_cnt_` equals the
number of nodes in state `Wait` (the bound by `MAX_SIMULTANEOUS_WAIT` does not
hold in general). -/
theorem wait_cnt_counts_wait_nodes (sr : Nat) (p : Bool) (msgs : List Msg)
    (st' : SequenceDispatcher)
    (h : run (SequenceDispatcher.init sr p) msgs = some st') :
    st'.wait_cnt_ = countW st'.data_ :=
  (run_inv msgs _ st' (init_inv sr p) h).1

/-- C4 witness: after a single submission the single dispatched node is counted. -/
theorem wait_cnt_counts_wait_nodes_witness :
    (submit (SequenceDispatcher.init 0 false) (qT 0 100000) 0).wait_cnt_ =
      countW (submit (SequenceDispatcher.init 0 false) (qT 0 100000) 0).data_ :=
  wait_cnt_counts_wait_nodes 0 false [Msg.submit (qT 0 100000) 0] _ rfl

/-- C5: `try_shrink` compacts exactly when the `Finish` prefix is more than half
of the queue and the queue holds more than five nodes; it erases exactly the
`Finish` prefix, shifts `next_i_` (and a still-valid `last_sent_i_`) down by the
prefix length, invalidates `last_sent_i_` otherwise, and adds the prefix length
to `id_offset_`, so every surviving node keeps its slot content and its external
token `pos + id_offset_`. -/
theorem try_shrink_behavior (st : SequenceDispatcher)
    (hpre : FinPre st.data_ st.finish_i_)
    (hbound : ∀ d, st.data_[st.finish_i_]? = some d → d.state_ ≠ QState.Finish) :
    (¬ (st.finish_i_ * 2 > st.data_.length ∧ st.data_.length > 5) → tryShrink st = st) ∧
    (st.finish_i_ * 2 > st.data_.length ∧ st.data_.length > 5 →
      (tryShrink st).data_ = st.data_.drop st.finish_i_ ∧
      (∀ d, d ∈ st.data_.take st.finish_i_ → d.state_ = QState.Finish) ∧
      (∀ d, (tryShrink st).data_[0]? = some d → d.state_ ≠ QState.Finish) ∧
      (tryShrink st).next_i_ = st.next_i_ - st.finish_i_ ∧
      (∀ j, st.last_sent_i_ = some j → (tryShrink st).last_sent_i_ =
        if st.finish_i_ ≤ j then some (j - st.finish_i_) else none) ∧
      (st.last_sent_i_ = none → (tryShrink st).last_sent_i_ = none) ∧
      (tryShrink st).id_offset_ = st.id_offset_ + st.finish_i_ ∧
      (∀ j d, st.finish_i_ ≤ j → st.data_[j]? = some d →
        (tryShrink st).data_[j - st.finish_i_]? = some d ∧
        j - st.finish_i_ + (tryShrink st).id_offset_ = j + st.id_offset_)) := by
  refine ⟨tryShrink_eq_nop, ?_⟩
  intro hc
  have heq := tryShrink_eq hc
  refine ⟨by rw [heq], ?_, ?_, by rw [heq], ?_, ?_, by rw [heq], ?_⟩
  · intro d hd
    rw [List.mem_iff_getElem?] at hd
    obtain ⟨j, hj⟩ := hd
    rw [List.getElem?_take] at hj
    split at hj
    · exact hpre _ _ hj (by omega)
    · cases hj
  · intro d hd
    rw [heq] at hd
    show d.state_ ≠ QState.Finish
    dsimp only at hd
    rw [List.getElem?_drop] at hd
    apply hbound
    simpa using hd
  · intro j hls
    rw [heq]
    show (match st.last_sent_i_ with
      | some j => if st.finish_i_ ≤ j then some (j - st.finish_i_) else none
      | none => none) = _
    rw [hls]
  · intro hls
    rw [heq]
    show (match st.last_sent_i_ with
      | some j => if st.finish_i_ ≤ j then some (j - st.finish_i_) else none
      | none => none) = none
    rw [hls]
  · intro j d hij hget
    rw [heq]
    constructor
    · show (st.data_.drop st.finish_i_)[j - st.finish_i_]? = some d
      rw [List.getElem?_drop]
      have hje : st.finish_i_ + (j - st.finish_i_) = j := by omega
      rw [hje]
      exact hget
    · show j - st.finish_i_ + (st.id_offset_ + st.finish_i_) = j + st.id_offset_
      omega

/-- C5 witness at `stC5` (four leading `Finish` nodes out of six): the prefix is
erased, indices shift by four, the offset grows by four, and the in-flight node
previously at position 4 keeps both its slot content and its token. -/
theorem try_shrink_behavior_witness :
    (tryShrink stC5).data_ = stC5.data_.drop stC5.finish_i_ ∧
    (tryShrink stC5).next_i_ = stC5.next_i_ - stC5.finish_i_ ∧
    (tryShrink stC5).last_sent_i_ = some 0 ∧
    (tryShrink stC5).id_offset_ = stC5.id_offset_ + stC5.finish_i_ ∧
    (tryShrink stC5).data_[4 - stC5.finish_i_]? = some dWait ∧
    4 - stC5.finish_i_ + (tryShrink stC5).id_offset_ = 4 + stC5.id_offset_ := by
  have hpre : FinPre stC5.data_ stC5.finish_i_ := by
    intro j d hj hlt
    have h4 : j < 4 := hlt
    interval_cases j <;> (cases hj; rfl)
  have hbound : ∀ d, stC5.data_[stC5.finish_i_]? = some d → d.state_ ≠ QState.Finish := by
    intro d hd
    cases hd
    decide
  have h := (try_shrink_behavior stC5 hpre hbound).2 (by decide)
  have htok := h.2.2.2.2.2.2.2 4 dWait (by decide) rfl
  have hls := h.2.2.2.2.1 4 rfl
  refine ⟨h.1, h.2.2.2.1, ?_, h.2.2.2.2.2.2.1, htok.1, htok.2⟩
  rw [hls]
  decide

/-- C6: `check_timeout` leaves every node that is not in `Start` (and the whole
dispatcher) unchanged; on a `Start` node it folds the node's accumulated
`total_timeout_` into the query; if the result exceeds the query's limit it
sets error 429 with message "Too Many Requests: retry after N", transitions the
node out of `Start` (through `Dummy`) into `try_resend_query`, which leaves it
in `Wait`, books a `wait_cnt_` slot and emits the callback request.  `N` is
exactly the ceiling of `last_timeout_` (in whole units of 1000 thousandths) for
every in-range non-negative `last_timeout_`. -/
theorem check_timeout_behavior (st : SequenceDispatcher) (i : Nat) :
    (∀ d, st.data_[i]? = some d → d.state_ ≠ QState.Start → checkTimeout st i = st) ∧
    (∀ d q, st.data_[i]? = some d → d.state_ = QState.Start → d.query_ = some q →
      (q.total_timeout + d.total_timeout_ ≤ q.total_timeout_limit →
        checkTimeout st i = { st with data_ := st.data_.set i (
          { d with total_timeout_ := 0,
                   query_ := some { q with
                     total_timeout := q.total_timeout + d.total_timeout_ } }) }) ∧
      (q.total_timeout + d.total_timeout_ > q.total_timeout_limit →
        checkTimeout st i = { st with
          data_ := st.data_.set i (
            { d with total_timeout_ := 0, query_ := none, state_ := QState.Wait }),
          wait_cnt_ := st.wait_cnt_ + 1,
          events := Ev.resendAsk (i + st.id_offset_)
            ({ q with total_timeout := q.total_timeout + d.total_timeout_,
                      error := some ⟨429, floodMessage d.last_timeout_⟩ }) :: st.events })) ∧
    (∀ lt : Int, 0 ≤ lt → lt < 2 ^ 31 * 1000 - 999 →
      floodMessage lt = "Too Many Requests: retry after " ++ toString (retryAfter lt) ∧
      lt ≤ retryAfter lt * 1000 ∧ (retryAfter lt - 1) * 1000 < lt) := by
  refine ⟨fun d h hs => checkTimeout_eq_of_not_start h hs, ?_, ?_⟩
  · intro d q hget hs hq
    exact ⟨fun hle => checkTimeout_eq_no_breach hget hs hq hle,
      fun hgt => checkTimeout_eq_breach hget hs hq hgt⟩
  · intro lt h0 hub
    refine ⟨rfl, ?_, ?_⟩ <;>
    · unfold retryAfter toInt32
      rw [Int.tdiv_eq_ediv (by omega) (by omega)]
      omega

/-- C6 witness at `stC6`: the `Start` node at position 1 has accumulated
`total_timeout_ = 700` on top of the query total 500 against a limit of 400;
`check_timeout` fails it with a 429 whose retry-after is 2 (ceiling of 1.5),
leaves it in `Wait` with a booked `wait_cnt_` slot, and emits the callback
request; the `Wait` node at position 0 is untouched. -/
theorem check_timeout_behavior_witness :
    checkTimeout stC6 0 = stC6 ∧
    checkTimeout stC6 1 = { stC6 with
      data_ := stC6.data_.set 1 (
        { dBreach with total_timeout_ := 0, query_ := none, state_ := QState.Wait }),
      wait_cnt_ := stC6.wait_cnt_ + 1,
      events := Ev.resendAsk (1 + stC6.id_offset_)
        (⟨1, 1200, 400, 0, some ⟨429, floodMessage 1500⟩, [], 0, 0⟩) :: stC6.events } ∧
    floodMessage 1500 = "Too Many Requests: retry after 2" ∧
    (1500 : Int) ≤ retryAfter 1500 * 1000 ∧ (retryAfter 1500 - 1) * 1000 < 1500 := by
  have h := check_timeout_behavior stC6 0
  have h2 := check_timeout_behavior stC6 1
  refine ⟨h.1 dWait rfl (by decide), ?_, ?_, ?_, ?_⟩
  · exact (h2.2.1 dBreach ⟨1, 500, 400, 0, none, [], 0, 0⟩ rfl rfl rfl).2 (by decide)
  · decide
  · exact (h2.2.2 1500 (by decide) (by decide)).2.1
  · exact (h2.2.2 1500 (by decide) (by decide)).2.2

/-- C7: a transport result takes the local resend path (restore the resent
query into the node, run `do_resend`) exactly when the query is an error with
code `ResendInvokeAfter`, or code 400 with message exactly `MSG_WAIT_FAILED` or
`MSG_WAIT_TIMEOUT`; every other result is deferred to the callback through
`try_resend_query`, which emits the `on_result_resendable` request; the new
multi-chain dispatcher classifies results by the identical condition. -/
theorem on_result_resend_classification (st st1 : SequenceDispatcher) (tok pos : Nat)
    (q : Query) (hdt : dataFromToken st tok = some (st1, pos)) :
    resendCheck q =
      (q.is_error && (q.error_code == ResendInvokeAfter ||
        (q.error_code == 400 && (q.error_message == "MSG_WAIT_FAILED" ||
          q.error_message == "MSG_WAIT_TIMEOUT")))) ∧
    multiNewResendCheck q = resendCheck q ∧
    (resendCheck q = true → onResult st tok q =
      some (loopRun (doResend
        (setNodeQuery (onResultFlood st1 pos q) pos (some q.resend)) pos))) ∧
    (resendCheck q = false →
      onResult st tok q =
        some (loopRun (tryResendQuery (onResultFlood st1 pos q) pos q)) ∧
      Ev.resendAsk (pos + (onResultFlood st1 pos q).id_offset_) q ∈
        (loopRun (tryResendQuery (onResultFlood st1 pos q) pos q)).events) := by
  have hor : onResult st tok q = some (loopRun (onResultCore st1 pos q)) := by
    unfold onResult
    rw [hdt]
    rfl
  refine ⟨rfl, rfl, ?_, ?_⟩
  · intro hc
    rw [hor]
    unfold onResultCore
    rw [if_pos hc]
  · intro hc
    have heq : onResultCore st1 pos q = tryResendQuery (onResultFlood st1 pos q) pos q := by
      unfold onResultCore
      rw [if_neg (by simp [hc])]
    constructor
    · rw [hor, heq]
    · obtain ⟨d, hget, hsW, hcnt0, htok, hst1⟩ := dataFromToken_inv hdt
      have hplen : pos < st.data_.length := (List.getElem?_eq_some.mp hget).1
      have hpos1 : st1.data_[pos]? = some { d with state_ := QState.Dummy } := by
        rw [hst1]
        show (st.data_.set pos _)[pos]? = _
        rw [List.getElem?_set, if_pos rfl, if_pos hplen]
      have hpos2 : (onResultFlood st1 pos q).data_[pos]? =
          some { d with state_ := QState.Dummy } := by
        unfold onResultFlood
        split
        · unfold propagate
          rw [(propagateFrom_spec q.last_timeout _ st1 (pos + 1)).1 pos (by omega)]
          exact hpos1
        · exact hpos1
      have htr := tryResendQuery_eq q hpos2 rfl
      have hmem : Ev.resendAsk (pos + (onResultFlood st1 pos q).id_offset_) q ∈
          (tryResendQuery (onResultFlood st1 pos q) pos q).events := by
        rw [htr]
        exact List.mem_cons_self _ _
      exact (loopRun_events _).subset hmem

/-- C7 witness at `stW1`: a 400/`MSG_WAIT_FAILED` result takes the local resend
path, while a plain success is deferred to the callback and the
`on_result_resendable` request for it appears in the event log. -/
theorem on_result_resend_classification_witness :
    resendCheck qWaitFailed = true ∧
    onResult stW1 1 qWaitFailed =
      some (loopRun (doResend
        (setNodeQuery (onResultFlood stW1d 0 qWaitFailed) 0 (some qWaitFailed.resend)) 0)) ∧
    resendCheck (qT 5 100000) = false ∧
    Ev.resendAsk (0 + (onResultFlood stW1d 0 (qT 5 100000)).id_offset_) (qT 5 100000) ∈
      (loopRun (tryResendQuery (onResultFlood stW1d 0 (qT 5 100000)) 0
        (qT 5 100000))).events := by
  have h1 := on_result_resend_classification stW1 stW1d 1 0 qWaitFailed (by decide)
  have h2 := on_result_resend_classification stW1 stW1d 1 0 (qT 5 100000) (by decide)
  exact ⟨by decide, h1.2.2.1 (by decide), by decide, (h2.2.2.2 (by decide)).2⟩

/-- C8, counterexample: after a single submission the only node is in `Wait`
with its query owned by the transport; `tear_down` skips it (its `query_` is
empty), leaving it in `Wait` with no error delivered — the claim that every
non-`Finish` node, including `Wait` nodes in transit, is failed and finalised
is false on this reachable state. -/
theorem tear_down_skips_wait_cex :
    (run (SequenceDispatcher.init 0 false) [Msg.submit (qT 0 100000) 0]).map
        (fun s => (tearDown s).data_.map (fun d => (d.state_, d.query_))) =
      some [(QState.Wait, none)] := by
  decide

/-- C8, amended: `tear_down` sets the aborted error on and finalises exactly
the nodes that still own their query (in reachable resting states those are the
`Start` nodes); a node whose query ownership is at the transport or at the
callback (state `Wait`, empty `query_`) is left untouched. -/
theorem tear_down_behavior (st : SequenceDispatcher) (i : Nat) (d : Data)
    (h : st.data_[i]? = some d) :
    (d.query_ = none → (tearDown st).data_[i]? = some d) ∧
    (∀ q, d.query_ = some q →
      (tearDown st).data_[i]? =
        some { d with state_ := QState.Finish,
                      query_ := some (q.set_error requestAbortedError) }) := by
  constructor
  · intro hq
    show (st.data_.map tearNode)[i]? = some d
    rw [List.getElem?_map, h]
    show some (tearNode d) = some d
    unfold tearNode
    rw [hq]
  · intro q hq
    show (st.data_.map tearNode)[i]? = _
    rw [List.getElem?_map, h]
    show some (tearNode d) = _
    unfold tearNode
    rw [hq]

/-- C8 witness at `stC1`: the in-transit `Wait` node at position 0 is skipped,
and the query-owning node at position 1 is failed with the aborted error and
finalised. -/
theorem tear_down_behavior_witness :
    (tearDown stC1).data_[0]? = some dWait ∧
    (tearDown stC1).data_[1]? =
      some { dStart 7 with state_ := QState.Finish,
                           query_ := some ((qT 7 100000).set_error requestAbortedError) } := by
  have h0 := tear_down_behavior stC1 0 dWait rfl
  have h1 := tear_down_behavior stC1 1 (dStart 7) rfl
  exact ⟨h0.1 rfl, h1.2 (qT 7 100000) rfl⟩

/-- C9, counterexample: the new multi-chain dispatcher's submit accepts an
empty chains list (its only `CHECK` is over the elements), contradicting the
claim that an empty chains list is rejected as a programming error. -/
theorem multi_new_accepts_empty_chains_cex :
    (multiNewSend [] (qT 0 0) []).isSome = true ∧
    (multiOldSend [] []).isSome = false := by
  decide

/-- C9, amended: a zero chain id violates the precondition of both multi-chain
dispatchers and is rejected; an empty chains list is rejected by the old
dispatcher only, while the new dispatcher's submit accepts it (merely skipping
the `session_rand` derivation); under the full precondition (all ids non-zero,
non-empty list) both accept. -/
theorem multi_submit_preconditions (m : List (Nat × Int))
    (tasks : List (List Nat × Query)) (q : Query) (chains : List Nat) :
    ((∃ c ∈ chains, c = 0) →
      multiOldSend m chains = none ∧ multiNewSend tasks q chains = none) ∧
    ((∀ c ∈ chains, c ≠ 0) →
      ((multiOldSend m chains).isSome = true ↔ chains ≠ []) ∧
      (multiNewSend tasks q chains).isSome = true) := by
  constructor
  · rintro ⟨c, hc, rfl⟩
    have hall : ¬ (chains.all (fun c => c ≠ 0) = true) := by
      simp only [List.all_eq_true, decide_eq_true_eq]
      intro hforall
      exact hforall 0 hc rfl
    constructor
    · unfold multiOldSend
      rw [if_pos hall]
    · unfold multiNewSend
      rw [if_pos hall]
  · intro hnz
    have hall : chains.all (fun c => c ≠ 0) = true := by
      simp only [List.all_eq_true, decide_eq_true_eq]
      exact hnz
    constructor
    · unfold multiOldSend
      rw [if_neg (not_not_intro hall)]
      cases chains with
      | nil => simp
      | cons c0 rest =>
        cases hlk : List.lookup c0 m with
        | none => simp [hlk]
        | some v => simp [hlk]
    · unfold multiNewSend
      rw [if_neg (not_not_intro hall)]
      rfl

/-- C9 witness: a singleton non-zero chain list is accepted by both
dispatchers. -/
theorem multi_submit_preconditions_witness :
    (multiOldSend [] [3]).isSome = true ∧
    (multiNewSend [] (qT 1 0) [3]).isSome = true := by
  have h := (multi_submit_preconditions [] [] (qT 1 0) [3]).2 (by decide)
  exact ⟨h.1.mpr (by decide), h.2⟩

/-- C10: in the old multi-chain dispatcher, a submission increments the target
child's `cnt_` (creating the entry at 1), a child `on_result` notification
decrements it, and `ready_to_close` erases the child exactly when its `cnt_` is
zero — a child with submitted-but-unfinished queries (`cnt_ ≠ 0`) is never
erased by an idle-close notification. -/
theorem multi_old_counting (m : List (Nat × Int)) (sid : Nat) (rest : List Nat)
    (tok : Nat) (v : Int) :
    (sid ≠ 0 → (∀ c ∈ rest, c ≠ 0) → m.lookup sid = some v →
      multiOldSend m (sid :: rest) = some (updateAssoc m sid (v + 1))) ∧
    (sid ≠ 0 → (∀ c ∈ rest, c ≠ 0) → m.lookup sid = none →
      multiOldSend m (sid :: rest) = some (m ++ [(sid, 1)])) ∧
    (m.lookup tok = some v → multiOldOnResult m tok = some (updateAssoc m tok (v - 1))) ∧
    (m.lookup tok = some v → v ≠ 0 → multiOldReadyToClose m tok = some m) ∧
    (m.lookup tok = some 0 → multiOldReadyToClose m tok = some (eraseAssoc m tok)) := by
  have hallOf : ∀ (hs : sid ≠ 0), (∀ c ∈ rest, c ≠ 0) →
      (sid :: rest).all (fun c => c ≠ 0) = true := by
    intro hs hr
    simp only [List.all_eq_true, decide_eq_true_eq]
    intro c hcm
    rcases List.mem_cons.mp hcm with rfl | hm
    · exact hs
    · exact hr c hm
  refine ⟨?_, ?_, ?_, ?_, ?_⟩
  · intro hs hr hlk
    unfold multiOldSend
    rw [if_neg (not_not_intro (hallOf hs hr))]
    simp [hlk]
  · intro hs hr hlk
    unfold multiOldSend
    rw [if_neg (not_not_intro (hallOf hs hr))]
    simp [hlk]
  · intro hlk
    unfold multiOldOnResult
    rw [hlk]
  · intro hlk hv
    unfold multiOldReadyToClose
    simp only [hlk]
    rw [if_neg hv]
  · intro hlk
    unfold multiOldReadyToClose
    simp only [hlk]
    simp

/-- C10 witness on the map `[(7, 2)]`: a submission raises the count to 3, a
child notification lowers it to 1, idle-close keeps the child while the count
is non-zero, and erases it once the count is zero. -/
theorem multi_old_counting_witness :
    multiOldSend [(7, 2)] [7] = some [(7, 3)] ∧
    multiOldOnResult [(7, 2)] 7 = some [(7, 1)] ∧
    multiOldReadyToClose [(7, 2)] 7 = some [(7, 2)] ∧
    multiOldReadyToClose [(7, 0)] 7 = some [] := by
  have h1 := multi_old_counting [(7, 2)] 7 [] 7 2
  have h2 := multi_old_counting [(7, 0)] 7 [] 7 0
  refine ⟨?_, ?_, ?_, ?_⟩
  · have := h1.1 (by decide) (by intro c hc; cases hc) (by decide)
    rw [this]
    decide
  · have := h1.2.2.1 (by decide)
    rw [this]
    decide
  · exact h1.2.2.2.1 (by decide) (by decide)
  · have := h2.2.2.2.2 (by decide)
    rw [this]
    decide

end TD
